import Mathlib

/-!
# Verification of the call-session and coin-ledger engine

Shallow embedding of the billing core of a call-platform backend
(`api/routes/call.py`, `api/utils/badge_manager.py`, `api/routes/badge.py`,
`background_tasks/services/coin_deduction_service.py`,
`background_tasks/services/call_service.py`).

Modelling conventions:
* Monetary values (coin balances, ledger deltas, per-minute rupee rates,
  earnings) are `ℚ`; the Python values are ints and floats and every
  arithmetic operation used (`+`, `-`, `*`, `//`, `int(...)`, comparisons)
  is exact on the rationals involved.
* Times and dates are `ℕ` (seconds since epoch for timestamps, days for
  calendar dates); `datetime.utcnow()` becomes an explicit `now` argument
  and `date.today()` an explicit `today` argument.
* SQL tables are association lists; an SQL `UPDATE ... WHERE p` maps the
  update over the rows satisfying `p` and its row count is the number of
  such rows.  `fetchrow` is `List.find?`.
* HTTP exceptions / `ValueError` become `Except Err`; Redis mirroring,
  presence rows and client broadcasting are not part of the modelled state
  (no claim under audit depends on them).
-/

namespace Saathii

/-- Call kinds, from `CallType` in `api/schemas/call.py`. -/
inductive CallType where
  | audio
  | video
deriving DecidableEq, Repr

/-- Per-minute coin rate, from `DEFAULT_CALL_RATES` in `api/schemas/call.py`
(audio 10, video 60). -/
def ratePerMinute : CallType → ℚ
  | .audio => 10
  | .video => 60

/-- Minimum charge, from `DEFAULT_CALL_RATES` in `api/schemas/call.py`
(audio 10, video 60). -/
def minimumCharge : CallType → ℚ
  | .audio => 10
  | .video => 60

/-- Python `int(x)` on a float/Decimal: truncation toward zero. -/
def pyInt (q : ℚ) : ℤ :=
  if 0 ≤ q then ⌊q⌋ else -⌊-q⌋

/-- Python floor division `a // b`. -/
def pyFloorDiv (a b : ℚ) : ℤ := ⌊a / b⌋

/-- One row of `user_transactions`: `(wallet_id, tx_type, coins_change)`.
`wallet_id` is identified with the owning `user_id` (wallets are keyed by
user and `wallet_id` is only ever obtained by looking the user up). -/
structure TxEntry where
  wallet : ℕ
  tx_kind : String
  coins_change : ℚ
deriving DecidableEq, Repr

/-- One row of `user_calls`. -/
structure CallRow where
  call_id : ℕ
  user_id : ℕ
  listener_id : ℕ
  call_type : CallType
  status : String
  start_time : ℕ
  end_time : Option ℕ
  duration_seconds : Option ℕ
  duration_minutes : Option ℕ
  coins_spent : ℚ
  user_money_spend : ℚ
  listener_money_earned : ℚ
deriving DecidableEq, Repr

/-- One row of `listener_badges`: key `(listener_id, date)` plus the badge
tier and that tier's two rates. -/
structure BadgeRow where
  listener_id : ℕ
  date : ℕ
  badge : String
  audio_rate_per_minute : ℚ
  video_rate_per_minute : ℚ
deriving DecidableEq, Repr

/-- The durable store: `users`, `user_wallets` (user ↦ `balance_coins`),
`user_transactions`, `user_calls`, `listener_badges`, and the sequence
feeding `call_id`. -/
structure DB where
  users : List ℕ
  wallets : List (ℕ × ℚ)
  txLog : List TxEntry
  calls : List CallRow
  badges : List BadgeRow
  next_call_id : ℕ
deriving DecidableEq, Repr

/-- Error taxonomy raised by the embedded operations (HTTP exceptions,
`ValueError`, and the `TypeError` raised by subscripting a pydantic
`CallRateConfig` in the source). -/
inductive Err where
  | notFound
  | conflict
  | insufficientFunds
  | internal
  | typeError
deriving DecidableEq, Repr

/-- `SELECT balance_coins FROM user_wallets WHERE user_id = $1` followed by
`result or 0` (`get_user_coin_balance`, identical in `api/routes/call.py`
and both background services). -/
def get_user_coin_balance (db : DB) (u : ℕ) : ℚ :=
  match db.wallets.find? (fun p => p.1 = u) with
  | some p => p.2
  | none => 0

/-- Whether a `user_wallets` row exists for `u`
(`SELECT wallet_id FROM user_wallets WHERE user_id = $1` returning non-NULL). -/
def walletExists (db : DB) (u : ℕ) : Bool :=
  (db.wallets.find? (fun p => p.1 = u)).isSome

/-- `UPDATE user_wallets SET balance_coins = f(balance_coins) WHERE user_id = u`. -/
def updateWallet (ws : List (ℕ × ℚ)) (u : ℕ) (f : ℚ → ℚ) : List (ℕ × ℚ) :=
  ws.map (fun p => if p.1 = u then (p.1, f p.2) else p)

/-- `update_user_coin_balance(user_id, coins, operation, tx_type)` — the
wallet primitive, written out identically in `api/routes/call.py` and in
both background services (they differ only in the exception class raised).
`subtract` first re-reads the balance and fails when it is below `coins`;
otherwise it decrements the balance and, when the wallet row exists,
appends one transaction with the given `tx_type` and delta `-coins`.
`add` increments the balance and, when the wallet row exists, appends one
transaction whose `tx_type` is the literal `"earn"` (the `tx_type`
argument is not used in this branch in the source). -/
def update_user_coin_balance (db : DB) (u : ℕ) (coins : ℚ)
    (operation tx_kind : String) : Except Err DB :=
  if operation = "subtract" then
    let current := get_user_coin_balance db u
    if current < coins then
      .error .insufficientFunds
    else
      let db1 := { db with wallets := updateWallet db.wallets u (· - coins) }
      if walletExists db u then
        .ok { db1 with txLog := db1.txLog ++ [⟨u, tx_kind, -coins⟩] }
      else
        .ok db1
  else if operation = "add" then
    let db1 := { db with wallets := updateWallet db.wallets u (· + coins) }
    if walletExists db u then
      .ok { db1 with txLog := db1.txLog ++ [⟨u, "earn", coins⟩] }
    else
      .ok db1
  else
    .ok db

/-- `UPDATE user_calls SET ... WHERE p`: the updated table together with the
statement's row count (the number of rows matched by `p`). -/
def updateCalls (p : CallRow → Bool) (f : CallRow → CallRow)
    (calls : List CallRow) : List CallRow × ℕ :=
  (calls.map (fun r => if p r then f r else r), (calls.filter p).length)

/-- `fetchrow` of a `user_calls` row by primary key. -/
def getCall (db : DB) (cid : ℕ) : Option CallRow :=
  db.calls.find? (fun r => r.call_id = cid)

/- ## Badge manager (`api/utils/badge_manager.py`) -/

/-- `BADGE_THRESHOLDS` (hours): basic 0, bronze 3, silver 6, gold 9. -/
def BADGE_THRESHOLDS (badge : String) : ℚ :=
  if badge = "basic" then 0
  else if badge = "bronze" then 3
  else if badge = "silver" then 6
  else if badge = "gold" then 9
  else 0

/-- `BADGE_RATES` (INR per minute).  The catch-all arm corresponds to a
`KeyError` in the source; it is unreachable from the call sites, which only
pass the four tier names. -/
def BADGE_RATES (badge : String) (ct : CallType) : ℚ :=
  match ct with
  | .audio =>
    if badge = "basic" then 1
    else if badge = "bronze" then 5/4
    else if badge = "silver" then 3/2
    else if badge = "gold" then 9/5
    else 0
  | .video =>
    if badge = "basic" then 6
    else if badge = "bronze" then 7
    else if badge = "silver" then 17/2
    else if badge = "gold" then 10
    else 0

/-- `calculate_daily_call_duration`: sum of `duration_minutes` over
`user_calls` rows with this listener, `DATE(start_time) = target_date` and
status `'completed'`, divided by `60.0` to give hours.  `DATE` of a
timestamp is its day number `start_time / 86400`; SQL `SUM` skips NULL
`duration_minutes`, hence `Option.getD 0`. -/
def calculate_daily_call_duration (db : DB) (listener : ℕ) (target_date : ℕ) : ℚ :=
  ((db.calls.filter (fun r =>
      r.listener_id = listener ∧ r.start_time / 86400 = target_date ∧
      r.status = "completed")).map
    (fun r => ((r.duration_minutes.getD 0 : ℕ) : ℚ))).sum / 60

/-- `determine_badge_for_duration`. -/
def determine_badge_for_duration (duration_hours : ℚ) : String :=
  if duration_hours ≥ BADGE_THRESHOLDS "gold" then "gold"
  else if duration_hours ≥ BADGE_THRESHOLDS "silver" then "silver"
  else if duration_hours ≥ BADGE_THRESHOLDS "bronze" then "bronze"
  else "basic"

/-- `INSERT ... ON CONFLICT (listener_id, date) DO UPDATE`: replace the
matching rows if any exist, else append the new row. -/
def upsertBadge (badges : List BadgeRow) (row : BadgeRow) : List BadgeRow :=
  if badges.any (fun b => b.listener_id = row.listener_id ∧ b.date = row.date) then
    badges.map (fun b =>
      if b.listener_id = row.listener_id ∧ b.date = row.date then row else b)
  else
    badges ++ [row]

/-- `assign_badge_for_date`: compute the previous day's completed-call hours,
map them to a tier, and upsert the `(listener, target_date)` badge row with
that tier's fixed audio/video rates. -/
def assign_badge_for_date (db : DB) (listener : ℕ) (target_date : ℕ) : DB :=
  let previous_date := target_date - 1
  let duration_hours := calculate_daily_call_duration db listener previous_date
  let badge := determine_badge_for_duration duration_hours
  let audio_rate := BADGE_RATES badge .audio
  let video_rate := BADGE_RATES badge .video
  { db with badges := upsertBadge db.badges ⟨listener, target_date, badge, audio_rate, video_rate⟩ }

/-- `get_listener_badge_for_date`: `fetchrow` on `listener_badges` by
`(listener_id, date)`. -/
def get_listener_badge_for_date (db : DB) (listener : ℕ) (target_date : ℕ) :
    Option BadgeRow :=
  db.badges.find? (fun b => b.listener_id = listener ∧ b.date = target_date)

/-- `get_listener_earning_rate`: the badge row's rate for the call kind for
the given date, falling back to the basic rates when no row exists. -/
def get_listener_earning_rate (db : DB) (listener : ℕ) (ct : CallType)
    (target_date : ℕ) : ℚ :=
  match get_listener_badge_for_date db listener target_date with
  | none => BADGE_RATES "basic" ct
  | some b =>
    match ct with
    | .audio => b.audio_rate_per_minute
    | .video => b.video_rate_per_minute

/-- `assign_basic_badge_for_today`: upsert a `'basic'` badge row for
`(listener, today)` with the basic rates, returning the row
(`RETURNING *`).  Used at listener registration (`api/routes/auth.py`)
and as the on-the-fly fallback of the current-badge route. -/
def assign_basic_badge_for_today (db : DB) (listener : ℕ) (today : ℕ) :
    DB × BadgeRow :=
  let row : BadgeRow := ⟨listener, today, "basic",
    BADGE_RATES "basic" .audio, BADGE_RATES "basic" .video⟩
  ({ db with badges := upsertBadge db.badges row }, row)

/-- `GET /listener/badge/current` (`api/routes/badge.py`): look up today's
badge row for the listener; when none exists, assign a basic badge on the
fly; error (HTTP 500) only if even that returned nothing — in the model the
upsert always returns its row, so this arm is unreachable.  Authentication
and the verified-listener gate are preconditions of the caller, not state
of this model. -/
def get_current_badge (db : DB) (listener : ℕ) (today : ℕ) :
    Except Err (DB × BadgeRow) :=
  match get_listener_badge_for_date db listener today with
  | some row => .ok (db, row)
  | none => .ok (assign_basic_badge_for_today db listener today)

/- ## Interactive session engine (`api/routes/call.py`) -/

/-- `check_user_availability`: `COUNT(*)` of `'ongoing'` rows in which the
user appears on either side, compared with `0`. -/
def check_user_availability (db : DB) (u : ℕ) : Bool :=
  (db.calls.filter (fun r =>
    (r.user_id = u ∨ r.listener_id = u) ∧ r.status = "ongoing")).length = 0

/-- The keyword values `start_call` passes when building its response.
(The route passes `call_duration`; the declared `StartCallResponse`
schema names that field `estimated_cost`.) -/
structure StartCallValues where
  call_id : ℕ
  call_duration : ℤ
  remaining_coins : ℚ
  call_type : CallType
  listener_id : ℕ
  status : String
deriving DecidableEq, Repr

/-- `POST /calls/start` (`start_call`): validate the listener, check both
parties are free, ensure the caller's wallet row exists, require the
balance to cover one minute, debit one minute's rate (ledger `'spend'`),
insert the `'ongoing'` session row with `coins_spent = rate`, and return
`max_duration_minutes = balance // rate` (computed before the debit) and
the post-debit balance.  Presence updates and the Redis mirror are outside
the modelled state. -/
def start_call (db : DB) (user_id listener_id : ℕ) (ct : CallType) (now : ℕ) :
    Except Err (DB × StartCallValues) :=
  if ¬ db.users.contains listener_id then
    .error .notFound
  else if ¬ check_user_availability db listener_id then
    .error .conflict
  else if ¬ check_user_availability db user_id then
    .error .conflict
  else
    -- INSERT INTO user_wallets ... ON CONFLICT (user_id) DO NOTHING
    let db0 := if walletExists db user_id then db
               else { db with wallets := db.wallets ++ [(user_id, 0)] }
    let current_balance := get_user_coin_balance db0 user_id
    let rate_per_minute := ratePerMinute ct
    if current_balance < rate_per_minute then
      .error .insufficientFunds
    else
      let max_duration_minutes := pyFloorDiv current_balance rate_per_minute
      match update_user_coin_balance db0 user_id rate_per_minute "subtract" "spend" with
      | .error e => .error e
      | .ok db1 =>
        let row : CallRow :=
          { call_id := db1.next_call_id, user_id := user_id,
            listener_id := listener_id, call_type := ct, status := "ongoing",
            start_time := now, end_time := none, duration_seconds := none,
            duration_minutes := none, coins_spent := rate_per_minute,
            user_money_spend := 0, listener_money_earned := 0 }
        let db2 := { db1 with calls := db1.calls ++ [row],
                              next_call_id := db1.next_call_id + 1 }
        .ok (db2,
          { call_id := row.call_id,
            call_duration := max_duration_minutes,
            remaining_coins := get_user_coin_balance db2 user_id,
            call_type := ct, listener_id := listener_id, status := "ongoing" })

/-- The values `end_call` returns in its response. -/
structure EndCallValues where
  call_id : ℕ
  duration_seconds : ℕ
  duration_minutes : ℕ
  coins_spent : ℚ
  listener_money_earned : ℚ
  status : String
deriving DecidableEq, Repr

/-- The `UPDATE user_calls SET end_time, duration_seconds, duration_minutes,
coins_spent, listener_money_earned, status ... WHERE call_id = $n` issued
by both branches of `end_call`.  The `WHERE` clause matches on `call_id`
alone — it carries no condition on the row's current status. -/
def end_call_update (calls : List CallRow) (cid : ℕ) (now ds dm : ℕ)
    (total lme : ℚ) (st : String) : List CallRow :=
  (updateCalls (fun r => r.call_id = cid)
    (fun r => { r with end_time := some now, duration_seconds := some ds,
                       duration_minutes := some dm, coins_spent := total,
                       listener_money_earned := lme, status := st })
    calls).1

/-- `data.reason or "completed"`: Python `or` treats `None` and the empty
string as falsy. -/
def reasonOrCompleted (reason : Option String) : String :=
  match reason with
  | none => "completed"
  | some s => if s = "" then "completed" else s

/-- The settlement tail the source writes out twice inside `end_call`
(once in the insufficient-balance branch, once at the end): look up the
listener's rate for today, compute
`listener_earnings = int(rate × duration_minutes)`, issue the update of
`end_call_update` (keyed on the request's `call_id` alone) writing
`stored` as the row status, credit the listener (ledger `'earn'`), and
build the response carrying `resp_status`. -/
def end_call_settle (db : DB) (call : CallRow) (cid : ℕ)
    (now today ds dm : ℕ) (total : ℚ) (stored resp_status : String) :
    Except Err (DB × EndCallValues) :=
  let lrate := get_listener_earning_rate db call.listener_id call.call_type today
  let listener_earnings : ℚ := ((pyInt (lrate * dm) : ℤ) : ℚ)
  let newCalls := end_call_update db.calls cid now ds dm total
    listener_earnings stored
  let db1 := { db with calls := newCalls }
  match update_user_coin_balance db1 call.listener_id listener_earnings
      "add" "earn" with
  | .error e => .error e
  | .ok db2 =>
    .ok (db2, { call_id := cid, duration_seconds := ds,
                duration_minutes := dm, coins_spent := total,
                listener_money_earned := listener_earnings,
                status := resp_status })

/-- `POST /calls/end` (`end_call`): fetch the caller's `'ongoing'` session
by id (404 otherwise); bill `max 1 (elapsed_seconds / 60)` minutes at the
call kind's coin rate; if the shortfall beyond the per-minute ticks
exceeds the balance, record the full elapsed cost and credit the listener
`int(todays_badge_rate × elapsed_minutes)` and mark the row `'dropped'`;
otherwise debit the shortfall (ledger `'spend'`), credit the listener
`int(todays_badge_rate × elapsed_minutes)` (ledger `'earn'`) and set the
status to `reason or 'completed'`.  The balance that is checked and
debited is that of the authenticated caller (`user_id` in the route) —
not the session's customer: the source reads
`get_user_coin_balance(user_id)` and debits `user_id`, so a
listener-initiated end settles against the listener's own wallet.
Presence clearing and the Redis delete are outside the modelled state. -/
def end_call (db : DB) (cid caller : ℕ) (reason : Option String)
    (now today : ℕ) : Except Err (DB × EndCallValues) :=
  match db.calls.find? (fun r => r.call_id = cid ∧
      (r.user_id = caller ∨ r.listener_id = caller) ∧ r.status = "ongoing") with
  | none => .error .notFound
  | some call =>
    let duration_seconds := now - call.start_time
    let duration_minutes := max 1 (duration_seconds / 60)
    let rate_per_minute := ratePerMinute call.call_type
    let total_cost := (duration_minutes : ℚ) * rate_per_minute
    let additional_cost := total_cost - call.coins_spent
    -- `stored` (the status written to the row) and the response status are
    -- computed by different expressions in the source
    let respStatus := if reason = some "dropped" then "dropped" else "completed"
    if additional_cost > 0 then
      let current_balance := get_user_coin_balance db caller
      if current_balance < additional_cost then
        -- coin-empty branch: settle as 'dropped' without further debit
        end_call_settle db call cid now today duration_seconds
          duration_minutes total_cost "dropped" "dropped"
      else
        match update_user_coin_balance db caller additional_cost
            "subtract" "spend" with
        | .error e => .error e
        | .ok db1 =>
          end_call_settle db1 call cid now today duration_seconds
            duration_minutes total_cost (reasonOrCompleted reason) respStatus
    else
      end_call_settle db call cid now today duration_seconds
        duration_minutes total_cost (reasonOrCompleted reason) respStatus

/- ## Billing driver (`background_tasks/services/coin_deduction_service.py`) -/

/-- `end_call_due_to_insufficient_coins`: forced settlement of a call whose
customer cannot cover the next minute.  The source computes the elapsed
duration and the listener's badge rate, then evaluates
`coins_already_spent // DEFAULT_CALL_RATES[call_type]["rate_per_minute"]`;
`DEFAULT_CALL_RATES` maps call types to pydantic `CallRateConfig` models,
and subscripting a model raises `TypeError`.  The raise happens before the
function's `try` block, so the `'dropped'` update and the listener credit
are never reached and the call aborts with no state change.  (Even past
that line, `conn.get_cursor()` — a method asyncpg connections do not
have — would raise inside the settlement transaction and roll it back.) -/
def end_call_due_to_insufficient_coins (db : DB) (call : CallRow)
    (now today : ℕ) : Except Err DB :=
  let _duration_seconds := now - call.start_time
  let _duration_minutes := max 1 ((now - call.start_time) / 60)
  let _lrate := get_listener_earning_rate db call.listener_id call.call_type today
  .error .typeError

/-- `process_call_coin_deduction` — one billing tick on the snapshot `call`.
After computing the elapsed duration, the source reads
`DEFAULT_CALL_RATES[call_type]["rate_per_minute"]`; `DEFAULT_CALL_RATES`
maps call types to pydantic `CallRateConfig` models, and subscripting a
model raises `TypeError`.  Every tick therefore aborts before the balance
check, the per-minute debit and the forced settlement, with no state
change; the sweep's per-item `except` catches the raise. -/
def process_call_coin_deduction (_db : DB) (call : CallRow) (now : ℕ) :
    Except Err DB :=
  let _duration_seconds := now - call.start_time
  let _duration_minutes := (now - call.start_time) / 60
  .error .typeError

/-- The `for item: try: step(item) except: continue` loop shared by both
sweepers (`deduct_per_minute_coins` and `cleanup_expired_calls`): each
item is processed against the current state; an item whose step raises is
skipped and the sweep continues with the rest. -/
def sweepRun (step : DB → CallRow → Except Err DB) (db : DB)
    (items : List CallRow) : DB :=
  items.foldl (fun d c =>
    match step d c with
    | .ok d1 => d1
    | .error _ => d) db

/-- The rows `deduct_per_minute_coins` fetches:
`status = 'ongoing' ORDER BY start_time ASC` (stable sort on start time). -/
def ongoingCallsByStart (db : DB) : List CallRow :=
  (db.calls.filter (fun r => r.status = "ongoing")).mergeSort
    (fun a b => a.start_time ≤ b.start_time)

/-- `deduct_per_minute_coins`: fetch the ongoing calls once, then run one
billing tick per fetched snapshot under per-item error isolation.  Since
every tick raises `TypeError` at the rate lookup, every item is skipped
and the sweep leaves the state unchanged. -/
def deduct_per_minute_coins (db : DB) (now : ℕ) : DB :=
  sweepRun (fun d c => process_call_coin_deduction d c now) db
    (ongoingCallsByStart db)

/- ## Expired-session reaper (`background_tasks/services/call_service.py`) -/

/-- `calculate_call_cost`: `max(minimum_charge, duration_minutes * rate)`. -/
def calculate_call_cost (ct : CallType) (duration_minutes : ℕ) : ℚ :=
  max (minimumCharge ct) ((duration_minutes : ℚ) * ratePerMinute ct)

/-- The committed effects of one item of `cleanup_expired_calls`.  The
per-item body recomputes the elapsed cost and, when the customer can cover
the shortfall beyond the coins already paid, debits it — on a separate
autocommitting connection, so the debit commits (one `'spend'` ledger
entry).  The settlement transaction that follows executes its `'dropped'`
update and then calls `conn.get_cursor()` — a method asyncpg connections
do not have — so it raises `AttributeError` and the transaction rolls
back: the terminal update and the listener credit never commit.  The raise
is caught by the loop's per-item `except`, so the item's surviving effect
is exactly the debit (or nothing, when no shortfall is due or the customer
cannot cover it); the model returns that surviving state. -/
def cleanup_one_call (db : DB) (call : CallRow) (now today : ℕ) : DB :=
  let duration_seconds := now - call.start_time
  let duration_minutes := max 1 (duration_seconds / 60)
  let total_cost := calculate_call_cost call.call_type duration_minutes
  let _lrate := get_listener_earning_rate db call.listener_id call.call_type today
  let coins_already_spent := call.coins_spent
  let additional_cost := total_cost - coins_already_spent
  if additional_cost > 0 then
    let current_balance := get_user_coin_balance db call.user_id
    if current_balance ≥ additional_cost then
      match update_user_coin_balance db call.user_id additional_cost
          "subtract" "spend" with
      | .ok db1 => db1
      | .error _ => db
    else
      db
  else
    db

/-- `cleanup_expired_calls`: per-item error isolation over the list of
expired-call snapshots (every item's settlement transaction aborts, so each
step contributes exactly its committed effects).  The SQL selection of
expired rows joins on `user_status.busy_until`, which is outside the
modelled state, so the fetched batch is a parameter. -/
def cleanup_expired_calls (db : DB) (expired : List CallRow) (now today : ℕ) : DB :=
  sweepRun (fun d c => .ok (cleanup_one_call d c now today)) db expired

/- ## Call history (`get_call_history` in `api/routes/call.py`) -/

/-- The pagination-relevant values of a `GET /calls/history` response. -/
structure CallHistoryValues where
  calls : List CallRow
  total_calls : ℕ
  page : ℕ
  per_page : ℕ
  has_next : Bool
  has_previous : Bool
deriving DecidableEq, Repr

/-- The filter predicate assembled from the optional `call_type` / `status`
query parameters (only whitelisted values are applied). -/
def historyMatches (u : ℕ) (call_type status : Option String)
    (r : CallRow) : Bool :=
  (r.user_id == u || r.listener_id == u) &&
  (match call_type with
   | some ct => if ct == "audio" || ct == "video"
                then (if r.call_type == .audio then "audio" else "video") == ct
                else true
   | none => true) &&
  (match status with
   | some st => if st == "ongoing" || st == "completed" || st == "dropped"
                then r.status == st
                else true
   | none => true)

/-- `get_call_history`: clamp `page` to ≥ 1 and `per_page` into `[1,100]`
(falling back to 20), select the matching rows with
`LIMIT per_page OFFSET (page-1)*per_page`, and report
`has_next = len(calls) > per_page` and `has_previous = page > 1`.
`page`/`per_page` are `ℤ` as the query accepts any integers.  Aggregate
coin totals and the joined usernames are omitted (no claim depends on
them); row ordering (`ORDER BY created_at DESC`) is inherited from the
list order of `db.calls`. -/
def get_call_history (db : DB) (u : ℕ) (page per_page : ℤ)
    (call_type status : Option String) : CallHistoryValues :=
  let page := if page < 1 then 1 else page
  let per_page := if per_page < 1 ∨ per_page > 100 then 20 else per_page
  let offset := (page - 1) * per_page
  let matched := db.calls.filter (historyMatches u call_type status)
  let rows := (matched.drop offset.toNat).take per_page.toNat
  { calls := rows,
    total_calls := matched.length,
    page := page.toNat,
    per_page := per_page.toNat,
    has_next := rows.length > per_page,
    has_previous := page > 1 }


/- ## Concrete states and proof-side operation alphabets
used by the claim theorems and their witnesses. -/

/-- An ongoing audio session for which exactly one minute was ever debited
(`coins_spent = 10` at rate 10). -/
def C1call : CallRow :=
  ⟨1, 1, 2, .audio, "ongoing", 0, none, none, none, 10, 0, 0⟩

/-- State for C1: customer 1 has balance 0, listener 2 has balance 0, no
badge rows (basic audio rate 1 applies). -/
def C1db : DB := ⟨[1, 2], [(1, 0), (2, 0)], [], [C1call], [], 2⟩

/-- The ledger's operation alphabet for sequential execution: the two
primitives exposed by `update_user_coin_balance` (`Debit` = `"subtract"`,
`Credit` = `"add"`); a failing debit raises and leaves the state
unchanged. -/
inductive WalletOp where
  | debit (u : ℕ) (amount : ℚ) (cat : String)
  | credit (u : ℕ) (amount : ℚ) (cat : String)
deriving DecidableEq, Repr

/-- The amount carried by a ledger operation. -/
def WalletOp.amount : WalletOp → ℚ
  | .debit _ a _ => a
  | .credit _ a _ => a

/-- Run one ledger primitive; a raised `InsufficientFunds` aborts the
operation with no state change. -/
def applyWalletOp (db : DB) (op : WalletOp) : DB :=
  match op with
  | .debit u a c =>
    match update_user_coin_balance db u a "subtract" c with
    | .ok d => d
    | .error _ => db
  | .credit u a c =>
    match update_user_coin_balance db u a "add" c with
    | .ok d => d
    | .error _ => db

/-- Sequential execution of a list of ledger primitives. -/
def applyWalletOps (db : DB) (ops : List WalletOp) : DB :=
  ops.foldl applyWalletOp db

/-- No wallet balance is negative. -/
def balancesNonneg (db : DB) : Prop := ∀ p ∈ db.wallets, (0 : ℚ) ≤ p.2

/-- Wallet state for C7's concrete instances: a single wallet, user 1,
balance 100. -/
def C7db : DB := ⟨[1], [(1, 100)], [], [], [], 1⟩

/-- A batch item that always fails, for the C8 witness. -/
def C8step : DB → CallRow → Except Err DB :=
  fun d c => if c.call_id = 1 then .error .internal else
    .ok { d with next_call_id := d.next_call_id + 1 }

/-- Batch items for the C8 witness (item 1 fails, item 2 succeeds). -/
def C8item1 : CallRow := ⟨1, 1, 2, .audio, "ongoing", 0, none, none, none, 10, 0, 0⟩

/-- Second batch item for the C8 witness. -/
def C8item2 : CallRow := ⟨2, 3, 4, .video, "ongoing", 0, none, none, none, 60, 0, 0⟩

/-- Empty state for the C8 witness. -/
def C8db : DB := ⟨[], [], [], [], [], 0⟩

/-- Empty state for the C9 witness. -/
def C9db : DB := ⟨[7], [], [], [], [], 0⟩

/-- State for the C5 witness: on day 9 listener 5 completed two calls of
100 minutes each; a dropped call on day 9 and a completed call on day 8
must be ignored; day 10 already has a (stale) badge row to be replaced. -/
def C5db : DB :=
  ⟨[5], [], [],
   [⟨1, 2, 5, .audio, "completed", 9 * 86400 + 100, none, none, some 100, 0, 0, 0⟩,
    ⟨2, 3, 5, .audio, "dropped", 9 * 86400 + 7, none, none, some 999, 0, 0, 0⟩,
    ⟨3, 4, 5, .video, "completed", 8 * 86400 + 5, none, none, some 999, 0, 0, 0⟩,
    ⟨4, 6, 5, .video, "completed", 9 * 86400 + 50, none, none, some 100, 0, 0, 0⟩],
   [⟨5, 10, "basic", 1, 6⟩], 9⟩

/-- The spec's start scenario: customer 1 holds 25 coins; listener 2 is
known and free; no session exists yet; the next session id is 5. -/
def C3db : DB := ⟨[1, 2], [(1, 25), (2, 0)], [], [], [], 5⟩

/-- Ongoing audio session snapshot for the C2 failing input (one minute
already charged). -/
def C2call : CallRow := ⟨1, 1, 2, .audio, "ongoing", 0, none, none, none, 10, 0, 0⟩

/-- State for the C2 failing input: customer 1 holds 35 coins, well above
one minute's audio rate. -/
def C2db : DB := ⟨[1, 2], [(1, 35), (2, 0)], [], [C2call], [], 2⟩

/-- Ongoing 1-minute audio session, fully covered by the tick charges, for
the C6 counterexample. -/
def C6crow : CallRow := ⟨1, 1, 2, .audio, "ongoing", 0, none, none, none, 10, 0, 0⟩

/-- State for the C6 counterexample: listener 2 holds a bronze badge for
today (= day 5) with audio rate 5/4. -/
def C6cdb : DB :=
  ⟨[1, 2], [(1, 50), (2, 0)], [], [C6crow], [⟨2, 5, "bronze", 5/4, 7⟩], 2⟩

/-- Ongoing 5-minute video session snapshot for the C6 witness, with all
five minutes already charged by the ticks (`coins_spent = 300`). -/
def C6row : CallRow := ⟨1, 1, 2, .video, "ongoing", 0, none, none, none, 300, 0, 0⟩

/-- State for the C6 witness: listener 2 holds a gold badge for today
(= day 7) with video rate 10. -/
def C6db : DB :=
  ⟨[1, 2], [(1, 40), (2, 0)], [], [C6row], [⟨2, 7, "gold", 9/5, 10⟩], 2⟩

/-- An already-settled (`'dropped'`) session row, for the C4
counterexample. -/
def C4row : CallRow := ⟨1, 1, 2, .audio, "dropped", 0, some 300, some 300, some 5, 50, 0, 5⟩

/-- Ongoing session for the C4 witness. -/
def C4wrow : CallRow := ⟨1, 1, 2, .audio, "ongoing", 0, none, none, none, 10, 0, 0⟩

/-- State for the C4 witness: customer 1 holds 100 coins; listener 2 has
no badge row (basic rate applies). -/
def C4wdb : DB := ⟨[1, 2], [(1, 100), (2, 0)], [], [C4wrow], [], 2⟩

/- ## Helper lemmas -/

/-- `find?` commutes with a map that does not change the search predicate. -/
theorem find?_map_stable {α : Type} (l : List α) (q : α → Bool) (g : α → α)
    (hg : ∀ a, q (g a) = q a) :
    (l.map g).find? q = (l.find? q).map g := by
  induction l with
  | nil => rfl
  | cons a t ih =>
    simp only [List.map_cons, List.find?]
    rw [hg a]
    cases hqa : q a with
    | true => simp
    | false => simpa using ih

/-- A filter returning a single element pins down `find?`. -/
theorem find?_of_filter_single {α : Type} (l : List α) (q : α → Bool) (r : α)
    (h : l.filter q = [r]) : l.find? q = some r := by
  induction l with
  | nil => simp at h
  | cons a t ih =>
    cases hqa : q a with
    | true =>
      simp only [List.filter_cons, hqa, if_true] at h
      obtain ⟨h1, _⟩ := List.cons_eq_cons.mp h
      subst h1
      simp [List.find?, hqa]
    | false =>
      simp only [List.filter_cons, hqa] at h
      simp only [List.find?, hqa]
      exact ih h

/-- `sweepRun` over an appended batch processes the halves in order. -/
theorem sweepRun_append (step : DB → CallRow → Except Err DB) (db : DB)
    (l1 l2 : List CallRow) :
    sweepRun step db (l1 ++ l2) = sweepRun step (sweepRun step db l1) l2 :=
  List.foldl_append _ _ _ _

/-- `updateWallet` leaves lookups by any key in `find?`-image form. -/
theorem find?_updateWallet (ws : List (ℕ × ℚ)) (u v : ℕ) (f : ℚ → ℚ) :
    (updateWallet ws u f).find? (fun p => p.1 = v) =
      (ws.find? (fun p => p.1 = v)).map
        (fun p => if p.1 = u then (p.1, f p.2) else p) := by
  apply find?_map_stable
  intro a
  by_cases h : a.1 = u <;> simp [h]

/-- Balance of the targeted wallet after an `updateWallet`. -/
theorem balance_updateWallet_self (db : DB) (u : ℕ) (f : ℚ → ℚ) (b : ℚ)
    (hw : db.wallets.find? (fun p => p.1 = u) = some (u, b)) :
    get_user_coin_balance { db with wallets := updateWallet db.wallets u f } u
      = f b := by
  unfold get_user_coin_balance
  simp only [find?_updateWallet, hw, Option.map_some]
  simp

/-- Balances of other wallets are untouched by an `updateWallet`. -/
theorem balance_updateWallet_other (db : DB) (u v : ℕ) (f : ℚ → ℚ)
    (hne : v ≠ u) :
    get_user_coin_balance { db with wallets := updateWallet db.wallets u f } v
      = get_user_coin_balance db v := by
  unfold get_user_coin_balance
  simp only [find?_updateWallet]
  cases h : db.wallets.find? (fun p => p.1 = v) with
  | none => rfl
  | some w =>
    have hv : w.1 = v := by simpa using List.find?_some h
    simp [hv, hne]

/-- Successful debit: balance decremented and exactly one ledger entry with
the requested category and delta `-coins`. -/
theorem update_coin_subtract_ok (db : DB) (u : ℕ) (coins : ℚ) (cat : String)
    (b : ℚ) (hw : db.wallets.find? (fun p => p.1 = u) = some (u, b))
    (hge : coins ≤ b) :
    update_user_coin_balance db u coins "subtract" cat =
      .ok { db with wallets := updateWallet db.wallets u (· - coins),
                    txLog := db.txLog ++ [⟨u, cat, -coins⟩] } := by
  unfold update_user_coin_balance
  have hbal : get_user_coin_balance db u = b := by
    unfold get_user_coin_balance
    simp [hw]
  have hex : walletExists db u = true := by
    unfold walletExists
    simp [hw]
  simp [hbal, hex, not_lt.mpr hge]

/-- Failing debit: `InsufficientFunds` and no state change. -/
theorem update_coin_subtract_insufficient (db : DB) (u : ℕ) (coins : ℚ)
    (cat : String) (b : ℚ)
    (hw : db.wallets.find? (fun p => p.1 = u) = some (u, b))
    (hlt : b < coins) :
    update_user_coin_balance db u coins "subtract" cat =
      .error .insufficientFunds := by
  unfold update_user_coin_balance
  have hbal : get_user_coin_balance db u = b := by
    unfold get_user_coin_balance
    simp [hw]
  simp [hbal, hlt]

/-- Credit on an existing wallet: balance incremented and exactly one
ledger entry — whose category is the literal `"earn"`, not `cat`. -/
theorem update_coin_add_ok (db : DB) (u : ℕ) (coins : ℚ) (cat : String)
    (w : ℕ × ℚ) (hw : db.wallets.find? (fun p => p.1 = u) = some w) :
    update_user_coin_balance db u coins "add" cat =
      .ok { db with wallets := updateWallet db.wallets u (· + coins),
                    txLog := db.txLog ++ [⟨u, "earn", coins⟩] } := by
  unfold update_user_coin_balance
  have hex : walletExists db u = true := by
    unfold walletExists
    simp [hw]
  simp [hex]

/- ## Claim C1 -/

/-- C1: refuted on the interactive EndCall path.  At a session with one
paid minute (`coins_spent = 10`, audio rate 10), five elapsed wall-clock
minutes and customer balance 0, `end_call` records and credits
`listener_money_earned = 5` — the basic audio rate times the five elapsed
minutes — and records `coins_spent = 50`, although the customer was never
debited past the first minute (their balance stays 0 and no `spend` entry
is written); the claimed value, rate × paid minutes
(= rate × coins_spent // rate), is 1. -/
theorem C1_end_call_credits_elapsed_unpaid_minutes :
    (end_call C1db 1 1 none 300 0).map
        (fun p => (p.2.listener_money_earned, p.2.coins_spent, p.2.status,
                   p.1.wallets, p.1.txLog)) =
      .ok (5, 50, "dropped", [(1, 0), (2, 5)],
           [⟨2, "earn", 5⟩]) ∧
    pyFloorDiv C1call.coins_spent (ratePerMinute .audio) = 1 ∧
    get_listener_earning_rate C1db 2 .audio 0 *
      ((pyFloorDiv C1call.coins_spent (ratePerMinute .audio) : ℤ) : ℚ) = 1 ∧
    (5 : ℚ) ≠ 1 := by
  refine ⟨?_, ?_, ?_, by norm_num⟩
  · norm_num [end_call, end_call_settle, C1db, C1call, List.find?,
      get_user_coin_balance, ratePerMinute, get_listener_earning_rate,
      get_listener_badge_for_date, BADGE_RATES, pyInt, end_call_update,
      updateCalls, update_user_coin_balance, walletExists, updateWallet,
      reasonOrCompleted]
    simp [Except.map]
  · norm_num [pyFloorDiv, C1call, ratePerMinute]
  · norm_num [pyFloorDiv, C1call, ratePerMinute, get_listener_earning_rate,
      get_listener_badge_for_date, C1db, BADGE_RATES, List.find?]

/- ## Claim C10 -/

/-- C10: for every call-history query — any database, account, page,
page-size and filters — the response returns at most `per_page` rows and
its `has_next` flag, computed as `len(calls) > per_page`, is `False`. -/
theorem C10_has_next_always_false (db : DB) (u : ℕ) (page per_page : ℤ)
    (call_type status : Option String) :
    (get_call_history db u page per_page call_type status).calls.length ≤
      (get_call_history db u page per_page call_type status).per_page ∧
    (get_call_history db u page per_page call_type status).has_next = false := by
  unfold get_call_history
  set pg := if page < 1 then 1 else page with hpg
  set pp := if per_page < 1 ∨ per_page > 100 then 20 else per_page with hpp
  have hpos : (0 : ℤ) ≤ pp := by
    rw [hpp]
    split
    · norm_num
    · omega
  set matched := db.calls.filter (historyMatches u call_type status)
  have hlen : ((matched.drop ((pg - 1) * pp).toNat).take pp.toNat).length ≤
      pp.toNat := by
    rw [List.length_take]
    exact min_le_left _ _
  refine ⟨hlen, ?_⟩
  have : ¬ ((pp : ℤ) <
      ((matched.drop ((pg - 1) * pp).toNat).take pp.toNat).length) := by
    push_neg
    calc (((matched.drop ((pg - 1) * pp).toNat).take pp.toNat).length : ℤ)
        ≤ (pp.toNat : ℤ) := by exact_mod_cast hlen
      _ = pp := Int.toNat_of_nonneg hpos
  exact decide_eq_false this

/- ## Claim C7 -/

/-- With unique wallet keys, `find?` returns any member with the searched
key. -/
theorem find?_of_nodup_keys (ws : List (ℕ × ℚ))
    (hnd : (ws.map Prod.fst).Nodup) (p : ℕ × ℚ) (hp : p ∈ ws) :
    ws.find? (fun q => q.1 = p.1) = some p := by
  induction ws with
  | nil => simp at hp
  | cons a t ih =>
    simp only [List.map_cons, List.nodup_cons] at hnd
    rcases List.mem_cons.mp hp with hpa | hpt
    · subst hpa
      simp [List.find?]
    · have hne : a.1 ≠ p.1 := by
        intro h
        exact hnd.1 (h ▸ List.mem_map_of_mem Prod.fst hpt)
      simp only [List.find?, show (decide (a.1 = p.1)) = false by simp [hne]]
      exact ih hnd.2 hpt

/-- `updateWallet` preserves the list of wallet keys. -/
theorem updateWallet_keys (ws : List (ℕ × ℚ)) (u : ℕ) (f : ℚ → ℚ) :
    (updateWallet ws u f).map Prod.fst = ws.map Prod.fst := by
  unfold updateWallet
  rw [List.map_map]
  apply List.map_congr_left
  intro a _
  by_cases h : a.1 = u <;> simp [h]

/-- A successful debit's wallet table is the pointwise decrement, and the
pre-state balance covered the amount. -/
theorem subtract_ok_inv (db : DB) (u : ℕ) (a : ℚ) (cat : String) (d : DB)
    (h : update_user_coin_balance db u a "subtract" cat = .ok d) :
    d.wallets = updateWallet db.wallets u (· - a) ∧
      a ≤ get_user_coin_balance db u := by
  unfold update_user_coin_balance at h
  by_cases hlt : get_user_coin_balance db u < a
  · simp [hlt] at h
  · by_cases hex : walletExists db u = true <;>
      simp [hlt, hex] at h <;>
      exact ⟨by rw [← h], le_of_not_lt hlt⟩

/-- A successful credit's wallet table is the pointwise increment. -/
theorem add_ok_inv (db : DB) (u : ℕ) (a : ℚ) (cat : String) (d : DB)
    (h : update_user_coin_balance db u a "add" cat = .ok d) :
    d.wallets = updateWallet db.wallets u (· + a) := by
  unfold update_user_coin_balance at h
  by_cases hex : walletExists db u = true <;> simp [hex] at h <;> rw [← h]

/-- One ledger primitive with a nonnegative amount keeps all balances
nonnegative (wallet keys unique, as enforced by the table's
`ON CONFLICT (user_id)` uniqueness). -/
theorem applyWalletOp_nonneg (db : DB) (op : WalletOp)
    (hnd : (db.wallets.map Prod.fst).Nodup) (hnn : balancesNonneg db)
    (ha : 0 ≤ op.amount) : balancesNonneg (applyWalletOp db op) := by
  cases op with
  | debit u a c =>
    simp only [applyWalletOp]
    cases h : update_user_coin_balance db u a "subtract" c with
    | error _ => exact hnn
    | ok d =>
      obtain ⟨hwal, hcov⟩ := subtract_ok_inv db u a c d h
      intro p' hp'
      rw [hwal] at hp'
      unfold updateWallet at hp'
      obtain ⟨p, hp, hpeq⟩ := List.mem_map.mp hp'
      by_cases hu : p.1 = u
      · have hfind : db.wallets.find? (fun q => q.1 = p.1) = some p :=
          find?_of_nodup_keys db.wallets hnd p hp
      -- the guard compared `a` against exactly this row's balance
        have hbal : get_user_coin_balance db u = p.2 := by
          unfold get_user_coin_balance
          rw [← hu, hfind]
        simp only [hu, if_true] at hpeq
        rw [← hpeq]
        have : a ≤ p.2 := hbal ▸ hcov
        simpa using sub_nonneg.mpr this
      · simp only [hu, if_false] at hpeq
        exact hpeq ▸ hnn p hp
  | credit u a c =>
    simp only [applyWalletOp]
    cases h : update_user_coin_balance db u a "add" c with
    | error _ => exact hnn
    | ok d =>
      have hwal := add_ok_inv db u a c d h
      intro p' hp'
      rw [hwal] at hp'
      unfold updateWallet at hp'
      obtain ⟨p, hp, hpeq⟩ := List.mem_map.mp hp'
      by_cases hu : p.1 = u
      · simp only [hu, if_true] at hpeq
        rw [← hpeq]
        simpa using add_nonneg (hnn p hp) (by simpa using ha)
      · simp only [hu, if_false] at hpeq
        exact hpeq ▸ hnn p hp

/-- One ledger primitive preserves the wallet key list. -/
theorem applyWalletOp_keys (db : DB) (op : WalletOp) :
    (applyWalletOp db op).wallets.map Prod.fst = db.wallets.map Prod.fst := by
  cases op with
  | debit u a c =>
    simp only [applyWalletOp]
    cases h : update_user_coin_balance db u a "subtract" c with
    | error _ => rfl
    | ok d => rw [(subtract_ok_inv db u a c d h).1, updateWallet_keys]
  | credit u a c =>
    simp only [applyWalletOp]
    cases h : update_user_coin_balance db u a "add" c with
    | error _ => rfl
    | ok d => rw [add_ok_inv db u a c d h, updateWallet_keys]

/-- Sequential runs of ledger primitives with nonnegative amounts keep all
balances nonnegative. -/
theorem applyWalletOps_nonneg (ops : List WalletOp) (db : DB)
    (hnd : (db.wallets.map Prod.fst).Nodup) (hnn : balancesNonneg db)
    (ha : ∀ op ∈ ops, 0 ≤ op.amount) :
    balancesNonneg (applyWalletOps db ops) := by
  induction ops generalizing db with
  | nil => exact hnn
  | cons op rest ih =>
    have h1 : balancesNonneg (applyWalletOp db op) :=
      applyWalletOp_nonneg db op hnd hnn (ha op (List.mem_cons_self op rest))
    have h2 : ((applyWalletOp db op).wallets.map Prod.fst).Nodup := by
      rw [applyWalletOp_keys]; exact hnd
    exact ih (applyWalletOp db op) h2 h1
      (fun o ho => ha o (List.mem_cons_of_mem op ho))

/-- C7 counterexample: the claim states that
`Credit(account, amount, category)` appends a ledger entry *with the given
category*; crediting 5 coins with category `"bonus"` appends an entry whose
category is the literal `"earn"`. -/
theorem C7_counterexample_credit_ignores_category :
    update_user_coin_balance C7db 1 5 "add" "bonus" =
      .ok ⟨[1], [(1, 105)], [⟨1, "earn", 5⟩], [], [], 1⟩ ∧
    ("earn" : String) ≠ "bonus" := by
  constructor
  · norm_num [update_user_coin_balance, walletExists, updateWallet, C7db,
      List.find?]
    intro habs
    exact absurd habs (by decide)
  · decide

/-- C7 (amended): for every wallet, `Debit` with `balance < amount` fails
with `InsufficientFunds` and changes nothing; otherwise it decrements the
balance by exactly `amount` and appends exactly one ledger entry with the
given category and delta `-amount`.  `Credit` increments the balance by
exactly `amount` and appends exactly one ledger entry with delta `+amount`
whose category is always `'earn'`, regardless of the category argument.
Under sequential execution of these primitives with nonnegative amounts
(and the wallet table's per-user uniqueness), no balance ever becomes
negative; each successful primitive appends exactly one entry matching its
balance change, and a failed debit appends none. -/
theorem C7_wallet_primitives_amended (db : DB) (u : ℕ) (a b : ℚ)
    (cat : String)
    (hw : db.wallets.find? (fun p => p.1 = u) = some (u, b)) :
    (b < a → update_user_coin_balance db u a "subtract" cat =
        .error .insufficientFunds) ∧
    (a ≤ b → update_user_coin_balance db u a "subtract" cat =
        .ok { db with wallets := updateWallet db.wallets u (· - a),
                      txLog := db.txLog ++ [⟨u, cat, -a⟩] } ∧
      get_user_coin_balance
        { db with wallets := updateWallet db.wallets u (· - a) } u = b - a) ∧
    (update_user_coin_balance db u a "add" cat =
        .ok { db with wallets := updateWallet db.wallets u (· + a),
                      txLog := db.txLog ++ [⟨u, "earn", a⟩] } ∧
      get_user_coin_balance
        { db with wallets := updateWallet db.wallets u (· + a) } u = b + a) ∧
    (∀ ops : List WalletOp, (db.wallets.map Prod.fst).Nodup →
      balancesNonneg db → (∀ op ∈ ops, 0 ≤ op.amount) →
      balancesNonneg (applyWalletOps db ops)) := by
  refine ⟨?_, ?_, ?_, ?_⟩
  · intro hlt
    exact update_coin_subtract_insufficient db u a cat b hw hlt
  · intro hge
    exact ⟨update_coin_subtract_ok db u a cat b hw hge,
           balance_updateWallet_self db u _ b hw⟩
  · exact ⟨update_coin_add_ok db u a cat (u, b) hw,
          balance_updateWallet_self db u _ b hw⟩
  · intro ops hnd hnn ha
    exact applyWalletOps_nonneg ops db hnd hnn ha

/-- Witness for C7's amended theorem: wallet `(1, 100)`, debit of 5 with
category `"spend"` succeeds, leaving balance 95 and the single matching
ledger entry. -/
theorem C7_wallet_primitives_amended_witness :
    C7db.wallets.find? (fun p => p.1 = 1) = some (1, 100) ∧
    (5 : ℚ) ≤ 100 ∧
    update_user_coin_balance C7db 1 5 "subtract" "spend" =
      .ok ⟨[1], [(1, 95)], [⟨1, "spend", -5⟩], [], [], 1⟩ := by
  have hw : C7db.wallets.find? (fun p => p.1 = 1) = some (1, 100) := by
    norm_num [C7db, List.find?]
  have h := ((C7_wallet_primitives_amended C7db 1 5 100 "spend" hw).2.1
    (by norm_num)).1
  refine ⟨hw, by norm_num, ?_⟩
  rw [h]
  norm_num [C7db, updateWallet]

/- ## Claim C8 -/

/-- C8: in the sweepers' shared `for item: try ... except: continue` loop,
a failing item does not prevent any other item of the batch from being
processed: a sweep over a batch containing a failing item `c` equals the
sweep over the same batch with `c` removed — every item before and after
`c` is processed exactly as it would have been. -/
theorem C8_sweep_isolates_failing_item (step : DB → CallRow → Except Err DB)
    (db : DB) (pre post : List CallRow) (c : CallRow) (e : Err)
    (hfail : step (sweepRun step db pre) c = .error e) :
    sweepRun step db (pre ++ c :: post) = sweepRun step db (pre ++ post) := by
  rw [sweepRun_append, sweepRun_append]
  unfold sweepRun at hfail ⊢
  simp only [List.foldl_cons, hfail]

/-- Witness for C8: with item 1 failing, the sweep over `[item1, item2]`
still processes item 2. -/
theorem C8_sweep_isolates_failing_item_witness :
    C8step (sweepRun C8step C8db []) C8item1 = .error .internal ∧
    sweepRun C8step C8db ([] ++ C8item1 :: [C8item2]) =
      sweepRun C8step C8db ([] ++ [C8item2]) := by
  have hfail : C8step (sweepRun C8step C8db []) C8item1 = .error .internal := by
    norm_num [C8step, sweepRun, C8item1]
  exact ⟨hfail,
    C8_sweep_isolates_failing_item C8step C8db [] [C8item2] C8item1 .internal hfail⟩

/- ## Claim C9 -/

/-- `find?` skips a prefix in which nothing matches. -/
theorem find?_append_of_none {α : Type} (l1 l2 : List α) (q : α → Bool)
    (h : l1.find? q = none) : (l1 ++ l2).find? q = l2.find? q := by
  induction l1 with
  | nil => rfl
  | cons a t ih =>
    simp only [List.find?] at h
    cases hqa : q a with
    | true => rw [hqa] at h; simp at h
    | false =>
      rw [hqa] at h
      simp only [List.cons_append, List.find?, hqa]
      exact ih h

/-- Overwriting every matching element makes `find?` return the
replacement, provided some element matched. -/
theorem find?_overwrite {α : Type} (bs : List α) (p : α → Prop)
    [DecidablePred p] (row : α) (hrow : p row)
    (hany : bs.any (fun b => decide (p b)) = true) :
    (bs.map (fun b => if p b then row else b)).find?
      (fun b => decide (p b)) = some row := by
  induction bs with
  | nil => simp at hany
  | cons a t ih =>
    simp only [List.map_cons, List.find?]
    by_cases hqa : p a
    · simp [hqa, hrow]
    · simp only [List.any_cons, decide_eq_true_eq, hqa, false_or] at hany
      simp [hqa, ih (by simpa using hany)]

/-- After an `upsertBadge`, the key's lookup returns exactly the upserted
row. -/
theorem find?_upsertBadge (bs : List BadgeRow) (row : BadgeRow) :
    (upsertBadge bs row).find?
      (fun b => b.listener_id = row.listener_id ∧ b.date = row.date) =
    some row := by
  unfold upsertBadge
  by_cases hany : bs.any
      (fun b => b.listener_id = row.listener_id ∧ b.date = row.date) = true
  · rw [if_pos hany]
    exact find?_overwrite bs
      (fun b => b.listener_id = row.listener_id ∧ b.date = row.date) row
      ⟨rfl, rfl⟩ hany
  · rw [if_neg hany]
    rw [find?_append_of_none]
    · simp [List.find?]
    · rw [List.find?_eq_none]
      intro x hx
      have hf : bs.any
          (fun b => b.listener_id = row.listener_id ∧ b.date = row.date)
          = false := Bool.eq_false_iff.mpr hany
      have := List.any_eq_false.mp hf x hx
      simpa using this

/-- C9: `GetCurrentBadge` never fails: for every database state it returns
a badge row; when no badge row exists for the listener today it assigns
and returns the `'basic'` badge with the basic audio/video rates (1 and 6),
the billing path's rate lookup likewise falls back to the basic rates, and
the registration-time seeding (`assign_basic_badge_for_today`, invoked by
signup for listeners) leaves a `'basic'` row for today in place. -/
theorem C9_current_badge_never_fails (db : DB) (l today : ℕ) (ct : CallType) :
    (∃ db1 row, get_current_badge db l today = .ok (db1, row)) ∧
    (get_listener_badge_for_date db l today = none →
      get_current_badge db l today =
        .ok (assign_basic_badge_for_today db l today) ∧
      (assign_basic_badge_for_today db l today).2 = ⟨l, today, "basic", 1, 6⟩ ∧
      get_listener_earning_rate db l ct today = BADGE_RATES "basic" ct) ∧
    get_listener_badge_for_date
        (assign_basic_badge_for_today db l today).1 l today =
      some ⟨l, today, "basic", 1, 6⟩ := by
  refine ⟨?_, ?_, ?_⟩
  · unfold get_current_badge
    cases h : get_listener_badge_for_date db l today with
    | some row => exact ⟨db, row, rfl⟩
    | none => exact ⟨_, _, rfl⟩
  · intro hnone
    refine ⟨?_, ?_, ?_⟩
    · unfold get_current_badge
      rw [hnone]
    · show (⟨l, today, "basic", BADGE_RATES "basic" .audio,
          BADGE_RATES "basic" .video⟩ : BadgeRow) = ⟨l, today, "basic", 1, 6⟩
      norm_num [BADGE_RATES]
    · unfold get_listener_earning_rate
      rw [hnone]
  · have h := find?_upsertBadge db.badges
      ⟨l, today, "basic", BADGE_RATES "basic" .audio, BADGE_RATES "basic" .video⟩
    unfold get_listener_badge_for_date assign_basic_badge_for_today
    norm_num [BADGE_RATES] at h ⊢
    exact h

/-- Witness for C9: listener 7, day 3, empty badge table — the current-badge
route returns the on-the-fly basic badge and the rate lookup returns the
basic audio rate 1. -/
theorem C9_current_badge_never_fails_witness :
    get_listener_badge_for_date C9db 7 3 = none ∧
    get_current_badge C9db 7 3 =
      .ok (assign_basic_badge_for_today C9db 7 3) ∧
    (assign_basic_badge_for_today C9db 7 3).2 = ⟨7, 3, "basic", 1, 6⟩ ∧
    get_listener_earning_rate C9db 7 .audio 3 = 1 := by
  have hnone : get_listener_badge_for_date C9db 7 3 = none := by
    norm_num [get_listener_badge_for_date, C9db, List.find?]
  have h := (C9_current_badge_never_fails C9db 7 3 .audio).2.1 hnone
  exact ⟨hnone, h.1, h.2.1, by rw [h.2.2]; norm_num [BADGE_RATES]⟩

/- ## Claim C5 -/

/-- Overwriting every matching element turns the matching sub-list into
copies of the replacement. -/
theorem filter_overwrite {α : Type} (bs : List α) (p : α → Prop)
    [DecidablePred p] (row : α) (hrow : p row) :
    (bs.map (fun b => if p b then row else b)).filter
        (fun b => decide (p b)) =
      (bs.filter (fun b => decide (p b))).map (fun _ => row) := by
  induction bs with
  | nil => rfl
  | cons a t ih => by_cases hqa : p a <;> simp [hqa, hrow, ih]

/-- Overwriting matching elements leaves the non-matching sub-list
untouched. -/
theorem filter_not_overwrite {α : Type} (bs : List α) (p : α → Prop)
    [DecidablePred p] (row : α) (hrow : p row) :
    (bs.map (fun b => if p b then row else b)).filter
        (fun b => decide (¬ p b)) =
      bs.filter (fun b => decide (¬ p b)) := by
  induction bs with
  | nil => rfl
  | cons a t ih =>
    by_cases hqa : p a <;> simp [hqa, hrow] at ih ⊢ <;> exact ih

/-- After an upsert, exactly one row for the upserted key remains — the
upserted row (given the table held at most one row for that key, as the
`(listener_id, date)` unique constraint enforces). -/
theorem upsertBadge_filter_key (bs : List BadgeRow) (row : BadgeRow)
    (l d : ℕ) (hl : row.listener_id = l) (hd : row.date = d)
    (hdup : (bs.filter (fun b => b.listener_id = l ∧ b.date = d)).length ≤ 1) :
    (upsertBadge bs row).filter
      (fun b => b.listener_id = l ∧ b.date = d) = [row] := by
  subst hl hd
  unfold upsertBadge
  by_cases hany : bs.any
      (fun b => b.listener_id = row.listener_id ∧ b.date = row.date) = true
  · rw [if_pos hany, filter_overwrite bs
      (fun b => b.listener_id = row.listener_id ∧ b.date = row.date)
      row ⟨rfl, rfl⟩]
    obtain ⟨x, hx, hqx⟩ := List.any_eq_true.mp hany
    have hpos : 0 < (bs.filter
        (fun b => b.listener_id = row.listener_id ∧
          b.date = row.date)).length :=
      List.length_pos_of_mem (List.mem_filter.mpr ⟨hx, hqx⟩)
    obtain ⟨y, hy⟩ := List.length_eq_one.mp (le_antisymm hdup hpos)
    rw [hy]
    rfl
  · rw [if_neg hany, List.filter_append]
    have hf : bs.filter
        (fun b => b.listener_id = row.listener_id ∧ b.date = row.date)
        = [] := by
      rw [List.filter_eq_nil_iff]
      intro x hx
      have := List.any_eq_false.mp (Bool.eq_false_iff.mpr hany) x hx
      simpa using this
    rw [hf]
    simp [List.filter]

/-- An upsert leaves every row outside its key untouched. -/
theorem upsertBadge_filter_other (bs : List BadgeRow) (row : BadgeRow)
    (l d : ℕ) (hl : row.listener_id = l) (hd : row.date = d) :
    (upsertBadge bs row).filter
        (fun b => ¬ (b.listener_id = l ∧ b.date = d)) =
      bs.filter (fun b => ¬ (b.listener_id = l ∧ b.date = d)) := by
  subst hl hd
  unfold upsertBadge
  by_cases hany : bs.any
      (fun b => b.listener_id = row.listener_id ∧ b.date = row.date) = true
  · rw [if_pos hany]
    exact filter_not_overwrite bs
      (fun b => b.listener_id = row.listener_id ∧ b.date = row.date)
      row ⟨rfl, rfl⟩
  · rw [if_neg hany, List.filter_append]
    simp [List.filter]

/-- The tier thresholds, as decided by `determine_badge_for_duration`:
`basic` under 3 hours, `bronze` in `[3,6)`, `silver` in `[6,9)`, `gold`
from 9 hours up. -/
theorem determine_badge_cases (h : ℚ) :
    (determine_badge_for_duration h = "basic" ↔ h < 3) ∧
    (determine_badge_for_duration h = "bronze" ↔ 3 ≤ h ∧ h < 6) ∧
    (determine_badge_for_duration h = "silver" ↔ 6 ≤ h ∧ h < 9) ∧
    (determine_badge_for_duration h = "gold" ↔ 9 ≤ h) := by
  unfold determine_badge_for_duration BADGE_THRESHOLDS
  by_cases h9 : h ≥ 9 <;> by_cases h6 : h ≥ 6 <;> by_cases h3 : h ≥ 3 <;>
    simp [h9, h6, h3] <;> linarith

/-- C5: the daily badge assignment computes the listener's hours as the
previous day's completed-call minutes over 60, maps them to the tier with
`basic` under 3 hours, `bronze` in `[3,6)`, `silver` in `[6,9)` and `gold`
from 9 hours, and upserts the `(listener, date)` row with that tier and
its fixed rates — exactly one row for that key afterwards (replace, never
duplicate), all other keys untouched. -/
theorem C5_daily_badge_assignment (db : DB) (l d : ℕ) (h : ℚ) (t : String)
    (hdup : (db.badges.filter
        (fun b => b.listener_id = l ∧ b.date = d)).length ≤ 1)
    (hh : h = calculate_daily_call_duration db l (d - 1))
    (ht : t = determine_badge_for_duration h) :
    ((t = "basic" ↔ h < 3) ∧ (t = "bronze" ↔ 3 ≤ h ∧ h < 6) ∧
     (t = "silver" ↔ 6 ≤ h ∧ h < 9) ∧ (t = "gold" ↔ 9 ≤ h)) ∧
    (assign_badge_for_date db l d).badges.filter
        (fun b => b.listener_id = l ∧ b.date = d) =
      [⟨l, d, t, BADGE_RATES t .audio, BADGE_RATES t .video⟩] ∧
    (assign_badge_for_date db l d).badges.filter
        (fun b => ¬ (b.listener_id = l ∧ b.date = d)) =
      db.badges.filter (fun b => ¬ (b.listener_id = l ∧ b.date = d)) := by
  subst ht hh
  refine ⟨determine_badge_cases _, ?_, ?_⟩
  · rw [show (assign_badge_for_date db l d).badges = upsertBadge db.badges
      ⟨l, d, determine_badge_for_duration
          (calculate_daily_call_duration db l (d - 1)),
        BADGE_RATES (determine_badge_for_duration
          (calculate_daily_call_duration db l (d - 1))) .audio,
        BADGE_RATES (determine_badge_for_duration
          (calculate_daily_call_duration db l (d - 1))) .video⟩ from rfl]
    exact upsertBadge_filter_key db.badges _ l d rfl rfl hdup
  · rw [show (assign_badge_for_date db l d).badges = upsertBadge db.badges
      ⟨l, d, determine_badge_for_duration
          (calculate_daily_call_duration db l (d - 1)),
        BADGE_RATES (determine_badge_for_duration
          (calculate_daily_call_duration db l (d - 1))) .audio,
        BADGE_RATES (determine_badge_for_duration
          (calculate_daily_call_duration db l (d - 1))) .video⟩ from rfl]
    exact upsertBadge_filter_other db.badges _ l d rfl rfl

/-- Witness for C5: 200 completed minutes on day 9 give 10/3 hours, tier
`bronze`, and the day-10 row is replaced by the bronze row with rates
5/4 and 7. -/
theorem C5_daily_badge_assignment_witness :
    (C5db.badges.filter
        (fun b => b.listener_id = 5 ∧ b.date = 10)).length ≤ 1 ∧
    (10 / 3 : ℚ) = calculate_daily_call_duration C5db 5 (10 - 1) ∧
    "bronze" = determine_badge_for_duration (10 / 3 : ℚ) ∧
    (assign_badge_for_date C5db 5 10).badges.filter
        (fun b => b.listener_id = 5 ∧ b.date = 10) =
      [⟨5, 10, "bronze", 5 / 4, 7⟩] := by
  have h1 : (C5db.badges.filter
      (fun b => b.listener_id = 5 ∧ b.date = 10)).length ≤ 1 := by
    norm_num [C5db, List.filter]
  have h2 : (10 / 3 : ℚ) = calculate_daily_call_duration C5db 5 (10 - 1) := by
    simp [calculate_daily_call_duration, C5db]
    norm_num
  have h3 : "bronze" = determine_badge_for_duration (10 / 3 : ℚ) := by
    simp [determine_badge_for_duration, BADGE_THRESHOLDS]
    norm_num
  have h := (C5_daily_badge_assignment C5db 5 10 (10 / 3) "bronze" h1 h2 h3).2.1
  refine ⟨h1, h2, h3, ?_⟩
  rw [h]
  simp [BADGE_RATES]

/- ## Claim C3 -/

/-- Balance reads depend on the wallet table only. -/
theorem balance_congr (dbA dbB : DB) (u : ℕ) (h : dbA.wallets = dbB.wallets) :
    get_user_coin_balance dbA u = get_user_coin_balance dbB u := by
  unfold get_user_coin_balance
  rw [h]

/-- C3: a successful `StartCall` for a customer with balance `b` at least
one minute's rate debits exactly one minute's rate with a single ledger
entry of category `'spend'`, creates the session row with status
`'ongoing'` and `coins_spent` equal to the rate, and returns affordable
minutes `⌊b / rate⌋` (computed on the pre-debit balance) and remaining
balance `b - rate`. -/
theorem C3_start_call_success (db : DB) (u l : ℕ) (ct : CallType)
    (now : ℕ) (b : ℚ)
    (hl : db.users.contains l = true)
    (havL : check_user_availability db l = true)
    (havU : check_user_availability db u = true)
    (hw : db.wallets.find? (fun p => p.1 = u) = some (u, b))
    (hb : ratePerMinute ct ≤ b) :
    ∃ db2 resp, start_call db u l ct now = .ok (db2, resp) ∧
      get_user_coin_balance db2 u = b - ratePerMinute ct ∧
      db2.txLog = db.txLog ++ [⟨u, "spend", -(ratePerMinute ct)⟩] ∧
      db2.calls = db.calls ++ [⟨db.next_call_id, u, l, ct, "ongoing", now,
        none, none, none, ratePerMinute ct, 0, 0⟩] ∧
      resp.call_duration = ⌊b / ratePerMinute ct⌋ ∧
      resp.remaining_coins = b - ratePerMinute ct ∧
      resp.status = "ongoing" := by
  have hex : walletExists db u = true := by
    unfold walletExists
    simp [hw]
  have hbal : get_user_coin_balance db u = b := by
    unfold get_user_coin_balance
    simp [hw]
  have hsub := update_coin_subtract_ok db u (ratePerMinute ct) "spend" b hw hb
  have hrun : start_call db u l ct now = .ok
      ({ users := db.users,
         wallets := updateWallet db.wallets u (· - ratePerMinute ct),
         txLog := db.txLog ++ [⟨u, "spend", -(ratePerMinute ct)⟩],
         calls := db.calls ++ [⟨db.next_call_id, u, l, ct, "ongoing", now,
           none, none, none, ratePerMinute ct, 0, 0⟩],
         badges := db.badges,
         next_call_id := db.next_call_id + 1 },
       { call_id := db.next_call_id,
         call_duration := ⌊b / ratePerMinute ct⌋,
         remaining_coins := get_user_coin_balance
           { db with
             wallets := updateWallet db.wallets u (· - ratePerMinute ct) } u,
         call_type := ct, listener_id := l, status := "ongoing" }) := by
    unfold start_call
    rw [hl]
    simp only [not_true, if_false, havL, havU, hex, if_true, hbal,
      not_lt.mpr hb, hsub, pyFloorDiv]
    rfl
  refine ⟨_, _, hrun, ?_, rfl, rfl, rfl, ?_, rfl⟩
  · exact balance_updateWallet_self db u (· - ratePerMinute ct) b hw
  · exact balance_updateWallet_self db u (· - ratePerMinute ct) b hw

/-- Witness for C3: starting an audio call (rate 10) with 25 coins debits
10, creates the ongoing row with `coins_spent = 10`, and returns
`max minutes = 2` and remaining balance 15. -/
theorem C3_start_call_success_witness :
    C3db.users.contains 2 = true ∧
    check_user_availability C3db 2 = true ∧
    check_user_availability C3db 1 = true ∧
    C3db.wallets.find? (fun p => p.1 = 1) = some (1, 25) ∧
    ratePerMinute .audio ≤ 25 ∧
    (start_call C3db 1 2 .audio 100).map
      (fun p => (p.2.call_duration, p.2.remaining_coins, p.2.status,
                 p.1.txLog, p.1.calls)) =
      .ok (2, 15, "ongoing", [⟨1, "spend", -10⟩],
        [⟨5, 1, 2, .audio, "ongoing", 100, none, none, none, 10, 0, 0⟩]) := by
  have h1 : C3db.users.contains 2 = true := by decide
  have h2 : check_user_availability C3db 2 = true := by
    norm_num [check_user_availability, C3db]
  have h3 : check_user_availability C3db 1 = true := by
    norm_num [check_user_availability, C3db]
  have h4 : C3db.wallets.find? (fun p => p.1 = 1) = some (1, 25) := by
    norm_num [C3db, List.find?]
  have h5 : ratePerMinute .audio ≤ (25 : ℚ) := by
    norm_num [ratePerMinute]
  obtain ⟨db2, resp, hrun, hbal2, htx, hcalls, hdur, hrem, hst⟩ :=
    C3_start_call_success C3db 1 2 .audio 100 25 h1 h2 h3 h4 h5
  refine ⟨h1, h2, h3, h4, h5, ?_⟩
  rw [hrun]
  simp only [Except.map, htx, hcalls, hdur, hrem, hst]
  norm_num [C3db, ratePerMinute]

/- ## Claim C2 -/

/-- `updateCalls` with a `call_id`-preserving update commutes with the
primary-key lookup. -/
theorem getCall_updateCalls (calls : List CallRow) (cid : ℕ)
    (p : CallRow → Bool) (f : CallRow → CallRow)
    (hf : ∀ x, (f x).call_id = x.call_id) :
    (updateCalls p f calls).1.find? (fun x => x.call_id = cid) =
      (calls.find? (fun x => x.call_id = cid)).map
        (fun x => if p x then f x else x) := by
  unfold updateCalls
  apply find?_map_stable
  intro a
  by_cases h : p a <;> simp [h, hf]

/-- A credit always succeeds; its result's non-wallet tables are untouched
and its wallet table is the pointwise increment. -/
theorem update_add_ok_any (db : DB) (u : ℕ) (a : ℚ) (cat : String) :
    ∃ d, update_user_coin_balance db u a "add" cat = .ok d ∧
      d.wallets = updateWallet db.wallets u (· + a) ∧
      d.calls = db.calls ∧ d.badges = db.badges := by
  by_cases hex : walletExists db u = true
  · obtain ⟨w, hw⟩ := Option.isSome_iff_exists.mp hex
    exact ⟨_, update_coin_add_ok db u a cat w hw, rfl, rfl, rfl⟩
  · refine ⟨{ db with wallets := updateWallet db.wallets u (· + a) },
      ?_, rfl, rfl, rfl⟩
    unfold update_user_coin_balance
    simp [hex]

/-- Field-level inversion of a successful credit. -/
theorem add_ok_fields (db : DB) (u : ℕ) (a : ℚ) (cat : String) (d : DB)
    (h : update_user_coin_balance db u a "add" cat = .ok d) :
    d.wallets = updateWallet db.wallets u (· + a) ∧ d.calls = db.calls ∧
      d.badges = db.badges := by
  unfold update_user_coin_balance at h
  by_cases hex : walletExists db u = true <;> simp [hex] at h <;>
    exact ⟨by rw [← h], by rw [← h], by rw [← h]⟩

/-- A sweep whose every step raises leaves the state unchanged. -/
theorem sweepRun_all_error (step : DB → CallRow → Except Err DB)
    (items : List CallRow) (db : DB)
    (h : ∀ d c, ∃ e, step d c = .error e) :
    sweepRun step db items = db := by
  induction items generalizing db with
  | nil => rfl
  | cons c t ih =>
    unfold sweepRun at ih ⊢
    obtain ⟨e, he⟩ := h db c
    simp only [List.foldl_cons, he]
    exact ih db

/-- C2: refuted on the code.  Every billing tick raises `TypeError` at the
rate lookup `DEFAULT_CALL_RATES[call_type]["rate_per_minute"]` before the
balance check, the debit and the forced settlement — neither of the
claim's branches ever happens — and the per-item `except` of the sweep
skips the call, so the whole per-minute sweep is the identity on the
state.  In particular, at an ongoing audio session with customer balance
35 (which per the claim should be debited one rate-unit of 10), the sweep
charges nothing, writes no ledger entry and leaves the row untouched. -/
theorem C2_bill_tick_never_charges (db : DB) (r : CallRow) (now : ℕ) :
    process_call_coin_deduction db r now = .error .typeError ∧
    deduct_per_minute_coins db now = db ∧
    process_call_coin_deduction C2db C2call 90 = .error .typeError ∧
    deduct_per_minute_coins C2db 90 = C2db ∧
    get_user_coin_balance (deduct_per_minute_coins C2db 90) 1 = 35 ∧
    (deduct_per_minute_coins C2db 90).txLog = [] ∧
    (getCall (deduct_per_minute_coins C2db 90) 1).map
      (fun x => (x.status, x.coins_spent)) = some ("ongoing", 10) := by
  have hall : ∀ (d : DB) (n : ℕ), deduct_per_minute_coins d n = d := by
    intro d n
    unfold deduct_per_minute_coins
    apply sweepRun_all_error
    intro d1 c
    exact ⟨.typeError, rfl⟩
  refine ⟨rfl, hall db now, rfl, hall C2db 90, ?_, ?_, ?_⟩
  · rw [hall C2db 90]
    norm_num [get_user_coin_balance, C2db, List.find?]
  · rw [hall C2db 90]
    rfl
  · rw [hall C2db 90]
    simp [getCall, C2db, C2call, List.find?]

/- ## Claim C6 -/

/-- The settlement tail always succeeds: it applies the (status-blind)
`end_call_update`, credits the listener exactly
`int(today's badge rate × duration_minutes)` with one `'earn'` ledger
entry, and changes no other balance. -/
theorem end_call_settle_spec (db : DB) (call : CallRow) (cid : ℕ)
    (now today ds dm : ℕ) (total : ℚ) (stored respst : String) (bl : ℚ)
    (hwl : db.wallets.find? (fun p => p.1 = call.listener_id) =
      some (call.listener_id, bl)) :
    ∃ db2, end_call_settle db call cid now today ds dm total stored respst =
      .ok (db2,
        { call_id := cid, duration_seconds := ds, duration_minutes := dm,
          coins_spent := total,
          listener_money_earned := ((pyInt (get_listener_earning_rate db
            call.listener_id call.call_type today * dm) : ℤ) : ℚ),
          status := respst }) ∧
      db2.calls = end_call_update db.calls cid now ds dm total
        ((pyInt (get_listener_earning_rate db call.listener_id
          call.call_type today * dm) : ℤ) : ℚ) stored ∧
      get_user_coin_balance db2 call.listener_id =
        bl + ((pyInt (get_listener_earning_rate db call.listener_id
          call.call_type today * dm) : ℤ) : ℚ) ∧
      (∀ v, v ≠ call.listener_id → get_user_coin_balance db2 v =
        get_user_coin_balance db v) ∧
      db2.badges = db.badges ∧
      db2.txLog = db.txLog ++ [⟨call.listener_id, "earn",
        ((pyInt (get_listener_earning_rate db call.listener_id
          call.call_type today * dm) : ℤ) : ℚ)⟩] := by
  set E : ℚ := ((pyInt (get_listener_earning_rate db call.listener_id
    call.call_type today * dm) : ℤ) : ℚ) with hE
  set newCalls := end_call_update db.calls cid now ds dm total E stored
    with hNC
  have hcred := update_coin_add_ok { db with calls := newCalls }
    call.listener_id E "earn" (call.listener_id, bl) hwl
  refine ⟨(⟨db.users, updateWallet db.wallets call.listener_id (· + E),
      db.txLog ++ [⟨call.listener_id, "earn", E⟩], newCalls, db.badges,
      db.next_call_id⟩ : DB),
    ?_, rfl, ?_, ?_, rfl, rfl⟩
  · simp only [end_call_settle]
    rw [hcred]
  · exact (balance_congr _ _ call.listener_id rfl).trans
      (balance_updateWallet_self db call.listener_id _ bl hwl)
  · intro v hv
    exact (balance_congr _ _ v rfl).trans
      (balance_updateWallet_other db call.listener_id v _ hv)

/-- C6 (amended): for every customer-initiated `EndCall` on an ongoing
session whose customer balance covers the elapsed duration (the route
checks and debits the wallet of the authenticated caller, so only ends
invoked by the customer settle against the customer's wallet), the billed
duration is `max 1 (elapsed_seconds / 60)` minutes, the shortfall beyond
what the per-minute ticks already charged is debited from the customer
(nothing when the ticks covered it), the listener is credited at today's
badge rate for the session's call kind, and `listener_money_earned` equals
`int(rate × billed minutes)` — the product truncated to an integer, not
the exact product. -/
theorem C6_end_call_covered_amended (db : DB) (r : CallRow)
    (reason : Option String) (now today : ℕ) (b bl : ℚ) (dm : ℕ) (total : ℚ)
    (hfind : db.calls.find? (fun x => x.call_id = r.call_id ∧
        (x.user_id = r.user_id ∨ x.listener_id = r.user_id) ∧
        x.status = "ongoing") = some r)
    (hneq : r.user_id ≠ r.listener_id)
    (hw : db.wallets.find? (fun p => p.1 = r.user_id) = some (r.user_id, b))
    (hwl : db.wallets.find? (fun p => p.1 = r.listener_id) =
      some (r.listener_id, bl))
    (hdm : dm = max 1 ((now - r.start_time) / 60))
    (htot : total = (dm : ℚ) * ratePerMinute r.call_type)
    (hcov : total - r.coins_spent ≤ b) :
    ∃ db2 resp,
      end_call db r.call_id r.user_id reason now today = .ok (db2, resp) ∧
      resp.duration_minutes = dm ∧
      resp.coins_spent = total ∧
      resp.listener_money_earned = ((pyInt (get_listener_earning_rate db
        r.listener_id r.call_type today * dm) : ℤ) : ℚ) ∧
      resp.status =
        (if reason = some "dropped" then "dropped" else "completed") ∧
      get_user_coin_balance db2 r.user_id =
        b - max 0 (total - r.coins_spent) ∧
      get_user_coin_balance db2 r.listener_id = bl +
        ((pyInt (get_listener_earning_rate db r.listener_id r.call_type
          today * dm) : ℤ) : ℚ) := by
  subst hdm
  subst htot
  have hbal : get_user_coin_balance db r.user_id = b := by
    unfold get_user_coin_balance
    simp [hw]
  by_cases hpos : ((max 1 ((now - r.start_time) / 60) : ℕ) : ℚ) *
      ratePerMinute r.call_type - r.coins_spent > 0
  case pos =>
    have hnl : ¬ (b < ((max 1 ((now - r.start_time) / 60) : ℕ) : ℚ) *
        ratePerMinute r.call_type - r.coins_spent) := not_lt.mpr hcov
    have hsub := update_coin_subtract_ok db r.user_id
      (((max 1 ((now - r.start_time) / 60) : ℕ) : ℚ) *
        ratePerMinute r.call_type - r.coins_spent) "spend" b hw hcov
    have hrun : end_call db r.call_id r.user_id reason now today =
        end_call_settle
          (⟨db.users,
            updateWallet db.wallets r.user_id
              (· - (((max 1 ((now - r.start_time) / 60) : ℕ) : ℚ) *
                ratePerMinute r.call_type - r.coins_spent)),
            db.txLog ++ [⟨r.user_id, "spend",
              -(((max 1 ((now - r.start_time) / 60) : ℕ) : ℚ) *
                ratePerMinute r.call_type - r.coins_spent)⟩],
            db.calls, db.badges, db.next_call_id⟩ : DB)
          r r.call_id now today (now - r.start_time)
          (max 1 ((now - r.start_time) / 60))
          (((max 1 ((now - r.start_time) / 60) : ℕ) : ℚ) *
            ratePerMinute r.call_type)
          (reasonOrCompleted reason)
          (if reason = some "dropped" then "dropped" else "completed") := by
      simp only [end_call]
      rw [hfind]
      simp only [hpos, if_true, hbal, hnl, if_false, hsub]
    have hwl1 : ((⟨db.users,
        updateWallet db.wallets r.user_id
          (· - (((max 1 ((now - r.start_time) / 60) : ℕ) : ℚ) *
            ratePerMinute r.call_type - r.coins_spent)),
        db.txLog ++ [⟨r.user_id, "spend",
          -(((max 1 ((now - r.start_time) / 60) : ℕ) : ℚ) *
            ratePerMinute r.call_type - r.coins_spent)⟩],
        db.calls, db.badges, db.next_call_id⟩ : DB)).wallets.find?
          (fun p => p.1 = r.listener_id) = some (r.listener_id, bl) := by
      dsimp only
      rw [find?_updateWallet, hwl]
      simp [Ne.symm hneq]
    obtain ⟨db2, hsettle, hcalls2, hbl2, hoth2, hbad2, htx2⟩ :=
      end_call_settle_spec _ r r.call_id now today (now - r.start_time)
        (max 1 ((now - r.start_time) / 60))
        (((max 1 ((now - r.start_time) / 60) : ℕ) : ℚ) *
          ratePerMinute r.call_type)
        (reasonOrCompleted reason)
        (if reason = some "dropped" then "dropped" else "completed")
        bl hwl1
    refine ⟨db2, _, hrun.trans hsettle, rfl, rfl, rfl, rfl, ?_, ?_⟩
    · rw [hoth2 r.user_id hneq]
      have hbal1 : get_user_coin_balance
          (⟨db.users,
            updateWallet db.wallets r.user_id
              (· - (((max 1 ((now - r.start_time) / 60) : ℕ) : ℚ) *
                ratePerMinute r.call_type - r.coins_spent)),
            db.txLog ++ [⟨r.user_id, "spend",
              -(((max 1 ((now - r.start_time) / 60) : ℕ) : ℚ) *
                ratePerMinute r.call_type - r.coins_spent)⟩],
            db.calls, db.badges, db.next_call_id⟩ : DB) r.user_id =
          b - (((max 1 ((now - r.start_time) / 60) : ℕ) : ℚ) *
            ratePerMinute r.call_type - r.coins_spent) :=
        (balance_congr _ _ r.user_id rfl).trans
          (balance_updateWallet_self db r.user_id _ b hw)
      rw [hbal1, max_eq_right (le_of_lt hpos)]
    · exact hbl2
  case neg =>
    have hrun : end_call db r.call_id r.user_id reason now today =
        end_call_settle db r r.call_id now today (now - r.start_time)
          (max 1 ((now - r.start_time) / 60))
          (((max 1 ((now - r.start_time) / 60) : ℕ) : ℚ) *
            ratePerMinute r.call_type)
          (reasonOrCompleted reason)
          (if reason = some "dropped" then "dropped" else "completed") := by
      simp only [end_call]
      rw [hfind]
      simp only [hpos, if_false]
    obtain ⟨db2, hsettle, hcalls2, hbl2, hoth2, hbad2, htx2⟩ :=
      end_call_settle_spec db r r.call_id now today (now - r.start_time)
        (max 1 ((now - r.start_time) / 60))
        (((max 1 ((now - r.start_time) / 60) : ℕ) : ℚ) *
          ratePerMinute r.call_type)
        (reasonOrCompleted reason)
        (if reason = some "dropped" then "dropped" else "completed")
        bl hwl
    refine ⟨db2, _, hrun.trans hsettle, rfl, rfl, rfl, rfl, ?_, ?_⟩
    · rw [hoth2 r.user_id hneq, hbal,
        max_eq_left (not_lt.mp hpos), sub_zero]
    · exact hbl2

/-- C6 counterexample: the claim states `listener_money_earned` equals the
badge rate times the billed minutes; for a bronze listener (audio rate
5/4) on a fully-paid 1-minute audio call the code stores
`int(5/4 × 1) = 1`, not `5/4`. -/
theorem C6_counterexample_earnings_truncated :
    (end_call C6cdb 1 1 none 60 5).map
      (fun p => (p.2.listener_money_earned, p.2.status)) =
      .ok (1, "completed") ∧
    get_listener_earning_rate C6cdb 2 .audio 5 * ((1 : ℕ) : ℚ) = 5 / 4 ∧
    (1 : ℚ) ≠ 5 / 4 := by
  refine ⟨?_, ?_, by norm_num⟩
  · norm_num [end_call, end_call_settle, C6cdb, C6crow, List.find?,
      get_user_coin_balance, ratePerMinute, get_listener_earning_rate,
      get_listener_badge_for_date, BADGE_RATES, pyInt, end_call_update,
      updateCalls, update_user_coin_balance, walletExists, updateWallet,
      reasonOrCompleted]
    simp [Except.map]
  · norm_num [get_listener_earning_rate, get_listener_badge_for_date,
      C6cdb, List.find?]

/-- Witness for C6's amended theorem: a gold-badge listener (video rate
10/minute) completing a 5-minute video call earns exactly 50, credited to
their balance. -/
theorem C6_end_call_covered_amended_witness :
    C6db.calls.find? (fun x => x.call_id = C6row.call_id ∧
        (x.user_id = 1 ∨ x.listener_id = 1) ∧
        x.status = "ongoing") = some C6row ∧
    (5 : ℕ) = max 1 ((300 - C6row.start_time) / 60) ∧
    (300 : ℚ) = ((5 : ℕ) : ℚ) * ratePerMinute C6row.call_type ∧
    (300 : ℚ) - C6row.coins_spent ≤ 40 ∧
    (end_call C6db 1 1 none 300 7).map
      (fun p => (p.2.duration_minutes, p.2.listener_money_earned,
                 p.2.status, get_user_coin_balance p.1 2)) =
      .ok (5, 50, "completed", 50) := by
  have hfind : C6db.calls.find? (fun x => x.call_id = C6row.call_id ∧
      (x.user_id = 1 ∨ x.listener_id = 1) ∧
      x.status = "ongoing") = some C6row := by
    simp [C6db, C6row, List.find?]
  have hneq : C6row.user_id ≠ C6row.listener_id := by decide
  have hw : C6db.wallets.find? (fun p => p.1 = C6row.user_id) =
      some (C6row.user_id, 40) := by
    simp [C6db, C6row, List.find?]
  have hwl : C6db.wallets.find? (fun p => p.1 = C6row.listener_id) =
      some (C6row.listener_id, 0) := by
    simp [C6db, C6row, List.find?]
  have hdm : (5 : ℕ) = max 1 ((300 - C6row.start_time) / 60) := by
    norm_num [C6row]
  have htot : (300 : ℚ) = ((5 : ℕ) : ℚ) * ratePerMinute C6row.call_type := by
    norm_num [C6row, ratePerMinute]
  have hcov : (300 : ℚ) - C6row.coins_spent ≤ 40 := by
    norm_num [C6row]
  obtain ⟨db2, resp, hrun, hdm2, hcs2, hlme2, hst2, hbu2, hbl2⟩ :=
    C6_end_call_covered_amended C6db C6row none 300 7 40 0 5 300
      hfind hneq hw hwl hdm htot hcov
  refine ⟨hfind, hdm, htot, hcov, ?_⟩
  have hrun' : end_call C6db 1 1 none 300 7 = .ok (db2, resp) := hrun
  rw [hrun']
  simp only [Except.map, hdm2, hlme2, hst2, hbl2]
  have hrate : get_listener_earning_rate C6db C6row.listener_id
      C6row.call_type 7 = 10 := by
    simp [get_listener_earning_rate, get_listener_badge_for_date, C6db,
      C6row, List.find?]
  rw [hrate]
  norm_num [pyInt]
  constructor
  · intro h
    cases h
  · have hbl2' : get_user_coin_balance db2 2 = 0 +
        ((pyInt ((10 : ℚ) * ((5 : ℕ) : ℚ)) : ℤ) : ℚ) := hbl2
    rw [hbl2']
    norm_num [pyInt]

/- ## Claim C4 -/

/-- Field-level inversion of a successful debit (non-wallet tables). -/
theorem subtract_ok_fields (db : DB) (u : ℕ) (a : ℚ) (cat : String) (d : DB)
    (h : update_user_coin_balance db u a "subtract" cat = .ok d) :
    d.calls = db.calls ∧ d.badges = db.badges := by
  unfold update_user_coin_balance at h
  by_cases hlt : get_user_coin_balance db u < a
  · simp [hlt] at h
  · by_cases hex : walletExists db u = true <;> simp [hlt, hex] at h <;>
      exact ⟨by rw [← h], by rw [← h]⟩

/-- A successful settlement tail writes exactly the `end_call_update`
session table (the credit never touches it). -/
theorem end_call_settle_ok_calls (db : DB) (call : CallRow) (cid : ℕ)
    (now today ds dm : ℕ) (total : ℚ) (stored respst : String)
    (db2 : DB) (resp : EndCallValues)
    (h : end_call_settle db call cid now today ds dm total stored respst =
      .ok (db2, resp)) :
    ∃ E : ℚ, db2.calls = end_call_update db.calls cid now ds dm total
      E stored := by
  simp only [end_call_settle] at h
  set E : ℚ := ((pyInt (get_listener_earning_rate db call.listener_id
    call.call_type today * dm) : ℤ) : ℚ) with hE
  set newCalls := end_call_update db.calls cid now ds dm total E stored
    with hNC
  cases hcred : update_user_coin_balance { db with calls := newCalls }
      call.listener_id E "add" "earn" with
  | error e =>
    rw [hcred] at h
    cases h
  | ok d =>
    rw [hcred] at h
    simp only [Except.ok.injEq, Prod.mk.injEq] at h
    refine ⟨E, ?_⟩
    rw [← h.1]
    exact (add_ok_fields _ _ _ _ d hcred).2.1

/-- A single-row filter on a weaker predicate pins down `find?` on a
stronger one, provided the single row satisfies the stronger predicate. -/
theorem find?_of_filter_single_of_imp {α : Type} (l : List α)
    (p q : α → Bool) (r : α) (h : l.filter p = [r])
    (hq : q r = true) (himp : ∀ a, q a = true → p a = true) :
    l.find? q = some r := by
  induction l with
  | nil => simp at h
  | cons a t ih =>
    cases hqa : q a with
    | true =>
      have hpa : p a = true := himp a hqa
      simp only [List.filter_cons, hpa, if_true] at h
      obtain ⟨h1, _⟩ := List.cons_eq_cons.mp h
      subst h1
      simp [List.find?, hqa]
    | false =>
      simp only [List.find?, hqa]
      cases hpa : p a with
      | true =>
        simp only [List.filter_cons, hpa, if_true] at h
        obtain ⟨h1, _⟩ := List.cons_eq_cons.mp h
        subst h1
        rw [hqa] at hq
        cases hq
      | false =>
        simp only [List.filter_cons, hpa] at h
        exact ih h

/-- A debit whose amount does not exceed the balance it re-reads never
raises. -/
theorem subtract_ok_exists (db : DB) (u : ℕ) (a : ℚ) (cat : String)
    (h : ¬ get_user_coin_balance db u < a) :
    ∃ d, update_user_coin_balance db u a "subtract" cat = .ok d := by
  unfold update_user_coin_balance
  by_cases hex : walletExists db u = true <;> simp [h, hex]

/-- The settlement tail never raises. -/
theorem end_call_settle_ok_exists (db : DB) (call : CallRow) (cid : ℕ)
    (now today ds dm : ℕ) (total : ℚ) (stored respst : String) :
    ∃ db2 resp,
      end_call_settle db call cid now today ds dm total stored respst =
        .ok (db2, resp) := by
  simp only [end_call_settle]
  obtain ⟨d, hd, -⟩ := update_add_ok_any
    { db with calls := (end_call_update db.calls cid now ds dm total
        (((pyInt (get_listener_earning_rate db call.listener_id
          call.call_type today * dm) : ℤ) : ℚ)) stored) }
    call.listener_id
    (((pyInt (get_listener_earning_rate db call.listener_id
      call.call_type today * dm) : ℤ) : ℚ)) "earn"
  rw [hd]
  exact ⟨_, _, rfl⟩

/-- An `EndCall` whose fetch finds an ongoing session for the caller never
raises: every branch ends in the settlement tail, and the debit branch is
guarded by the balance check it re-reads. -/
theorem end_call_ok_of_fetch (db : DB) (cid caller : ℕ)
    (reason : Option String) (now today : ℕ) (call : CallRow)
    (hfind : db.calls.find? (fun x => x.call_id = cid ∧
      (x.user_id = caller ∨ x.listener_id = caller) ∧
      x.status = "ongoing") = some call) :
    ∃ db1 resp, end_call db cid caller reason now today = .ok (db1, resp) := by
  simp only [end_call]
  rw [hfind]
  by_cases hpos : ((max 1 ((now - call.start_time) / 60) : ℕ) : ℚ) *
      ratePerMinute call.call_type - call.coins_spent > 0
  · simp only [hpos, if_true]
    by_cases hlt : get_user_coin_balance db caller <
        ((max 1 ((now - call.start_time) / 60) : ℕ) : ℚ) *
          ratePerMinute call.call_type - call.coins_spent
    · simp only [hlt, if_true]
      exact end_call_settle_ok_exists _ _ _ _ _ _ _ _ _ _
    · simp only [hlt, if_false]
      obtain ⟨d, hd⟩ := subtract_ok_exists db caller
        (((max 1 ((now - call.start_time) / 60) : ℕ) : ℚ) *
          ratePerMinute call.call_type - call.coins_spent) "spend" hlt
      rw [hd]
      exact end_call_settle_ok_exists _ _ _ _ _ _ _ _ _ _
  · simp only [hpos, if_false]
    exact end_call_settle_ok_exists _ _ _ _ _ _ _ _ _ _

/-- Inversion of a successful `EndCall`: the resulting session table is an
`end_call_update` of the original keyed on the request's `call_id`, whose
written status is `reason or 'completed'` or `'dropped'`. -/
theorem end_call_ok_calls_inv (db : DB) (cid caller : ℕ)
    (reason : Option String) (now today : ℕ) (db1 : DB)
    (resp : EndCallValues)
    (h : end_call db cid caller reason now today = .ok (db1, resp)) :
    ∃ (ds dm : ℕ) (total E : ℚ) (stored : String),
      (stored = reasonOrCompleted reason ∨ stored = "dropped") ∧
      db1.calls = end_call_update db.calls cid now ds dm total E stored := by
  unfold end_call at h
  cases hfind : db.calls.find? (fun x => x.call_id = cid ∧
      (x.user_id = caller ∨ x.listener_id = caller) ∧
      x.status = "ongoing") with
  | none =>
    rw [hfind] at h
    cases h
  | some call =>
    rw [hfind] at h
    dsimp only at h
    split at h
    · split at h
      · obtain ⟨E, hE⟩ := end_call_settle_ok_calls _ _ _ _ _ _ _ _ _ _ _ _ h
        exact ⟨_, _, _, E, "dropped", Or.inr rfl, hE⟩
      · cases hsub : update_user_coin_balance db caller
            (((max 1 ((now - call.start_time) / 60) : ℕ) : ℚ) *
              ratePerMinute call.call_type - call.coins_spent)
            "subtract" "spend" with
        | error e =>
          rw [hsub] at h
          cases h
        | ok dbx =>
          rw [hsub] at h
          obtain ⟨E, hE⟩ := end_call_settle_ok_calls _ _ _ _ _ _ _ _ _ _ _ _ h
          rw [(subtract_ok_fields _ _ _ _ _ hsub).1] at hE
          exact ⟨_, _, _, E, reasonOrCompleted reason, Or.inl rfl, hE⟩
    · obtain ⟨E, hE⟩ := end_call_settle_ok_calls _ _ _ _ _ _ _ _ _ _ _ _ h
      exact ⟨_, _, _, E, reasonOrCompleted reason, Or.inl rfl, hE⟩

/-- A successful interactive `EndCall` (with `reason` omitted) leaves the
session — when it was the table's only row for its id — in a terminal
status. -/
theorem end_call_ok_terminal (db : DB) (r : CallRow) (caller : ℕ)
    (now today : ℕ) (db1 : DB) (resp : EndCallValues)
    (hfilter : db.calls.filter (fun x => x.call_id = r.call_id) = [r])
    (h : end_call db r.call_id caller none now today = .ok (db1, resp)) :
    ∃ st, (getCall db1 r.call_id).map (fun x => x.status) = some st ∧
      (st = "completed" ∨ st = "dropped") := by
  obtain ⟨ds, dm, total, E, stored, hstored, hcalls⟩ :=
    end_call_ok_calls_inv db r.call_id caller none now today db1 resp h
  have hstored' : stored = "completed" ∨ stored = "dropped" := by
    rcases hstored with h' | h'
    · exact Or.inl h'
    · exact Or.inr h'
  refine ⟨stored, ?_, hstored'⟩
  unfold getCall
  rw [hcalls]
  unfold end_call_update
  rw [getCall_updateCalls db.calls r.call_id _
      (fun x => { x with end_time := some now, duration_seconds := some ds, duration_minutes := some dm, coins_spent := total, listener_money_earned := E, status := stored })
      (fun _ => rfl),
    find?_of_filter_single _ _ _ hfilter]
  simp

/-- C4 (amended): the interactive end-call's own update statement carries
no status condition (see the counterexample), and the billing sweeper's
forced settlement never performs its terminal transition at all: it raises
`TypeError` at its rate lookup before its conditional `'dropped'` update,
changing no state and issuing no credit.  Sequentially, one interactive
`End` (by either party of the session) and one forced-settlement attempt,
in either order, therefore produce exactly one terminal transition — the
interactive one: after the interactive end the row is terminal and the
forced settlement (indeed the whole per-minute sweep) changes nothing,
while a preceding forced-settlement attempt changes nothing, so the
interactive end still finds the row `'ongoing'` and settles it. -/
theorem C4_sequential_settlement_once_amended (db : DB) (r : CallRow)
    (caller : ℕ) (now today now2 today2 : ℕ)
    (hfilter : db.calls.filter (fun x => x.call_id = r.call_id) = [r])
    (hst : r.status = "ongoing")
    (hparty : r.user_id = caller ∨ r.listener_id = caller) :
    (∀ db1 resp,
      end_call db r.call_id caller none now today = .ok (db1, resp) →
      end_call_due_to_insufficient_coins db1 r now2 today2 =
          .error .typeError ∧
      deduct_per_minute_coins db1 now2 = db1 ∧
      ∃ st, (getCall db1 r.call_id).map (fun x => x.status) = some st ∧
        (st = "completed" ∨ st = "dropped")) ∧
    (end_call_due_to_insufficient_coins db r now today = .error .typeError ∧
     ∃ db1 resp,
       end_call db r.call_id caller none now2 today2 = .ok (db1, resp) ∧
       ∃ st, (getCall db1 r.call_id).map (fun x => x.status) = some st ∧
         (st = "completed" ∨ st = "dropped")) := by
  have hdeduct : ∀ (d : DB) (n : ℕ), deduct_per_minute_coins d n = d := by
    intro d n
    unfold deduct_per_minute_coins
    apply sweepRun_all_error
    intro d1 c
    exact ⟨.typeError, rfl⟩
  refine ⟨?_, rfl, ?_⟩
  · intro db1 resp h
    exact ⟨rfl, hdeduct db1 now2,
      end_call_ok_terminal db r caller now today db1 resp hfilter h⟩
  · have hfind : db.calls.find? (fun x => x.call_id = r.call_id ∧
        (x.user_id = caller ∨ x.listener_id = caller) ∧
        x.status = "ongoing") = some r := by
      apply find?_of_filter_single_of_imp db.calls
        (fun x => decide (x.call_id = r.call_id)) _ r hfilter
      · exact decide_eq_true ⟨rfl, hparty, hst⟩
      · intro a ha
        exact decide_eq_true (of_decide_eq_true ha).1
    obtain ⟨db1, resp, hok⟩ :=
      end_call_ok_of_fetch db r.call_id caller none now2 today2 r hfind
    exact ⟨db1, resp, hok,
      end_call_ok_terminal db r caller now2 today2 db1 resp hfilter hok⟩

/-- C4 counterexample: the claim states that *every* update setting a
session's status to `'completed'` or `'dropped'` is conditioned on the row
still being `'ongoing'`; the interactive end-call's update
(`end_call_update`, whose `WHERE` clause matches on `call_id` alone)
applied to a row already in terminal status `'dropped'` mutates it to
`'completed'` and overwrites its settlement figures — a second terminal
transition on a settled row. -/
theorem C4_counterexample_unconditional_terminal_update :
    C4row.status = "dropped" ∧
    (end_call_update [C4row] 1 600 600 10 100 10 "completed").map
      (fun x => (x.status, x.coins_spent, x.listener_money_earned)) =
      [("completed", 100, 10)] := by
  constructor
  · rfl
  · simp [end_call_update, updateCalls, C4row]

/-- Witness for C4's amended theorem: after an interactive end settles the
session (one `'completed'` transition, one 1-coin credit), the forced
settlement invoked on the stale snapshot aborts with `TypeError` and the
whole per-minute sweep leaves the settled state unchanged. -/
theorem C4_sequential_settlement_once_amended_witness :
    C4wdb.calls.filter (fun x => x.call_id = C4wrow.call_id) = [C4wrow] ∧
    C4wrow.status = "ongoing" ∧
    (C4wrow.user_id = 1 ∨ C4wrow.listener_id = 1) ∧
    ∃ db1 resp,
      end_call C4wdb C4wrow.call_id 1 none 60 0 = .ok (db1, resp) ∧
      end_call_due_to_insufficient_coins db1 C4wrow 120 0 =
        .error .typeError ∧
      deduct_per_minute_coins db1 120 = db1 := by
  have h1 : C4wdb.calls.filter (fun x => x.call_id = C4wrow.call_id) =
      [C4wrow] := by
    simp [C4wdb, C4wrow]
  have h2 : C4wrow.status = "ongoing" := rfl
  have h3 : C4wrow.user_id = 1 ∨ C4wrow.listener_id = 1 := Or.inl rfl
  have hrun : end_call C4wdb C4wrow.call_id 1 none 60 0 = .ok
      (⟨[1, 2], [(1, 100), (2, 1)], [⟨2, "earn", 1⟩],
        [⟨1, 1, 2, .audio, "completed", 0, some 60, some 60, some 1, 10, 0, 1⟩],
        [], 2⟩,
       ⟨1, 60, 1, 10, 1, "completed"⟩) := by
    norm_num [end_call, end_call_settle, C4wdb, C4wrow, List.find?,
      get_user_coin_balance, ratePerMinute, get_listener_earning_rate,
      get_listener_badge_for_date, BADGE_RATES, pyInt, end_call_update,
      updateCalls, update_user_coin_balance, walletExists, updateWallet,
      reasonOrCompleted]
    simp
  obtain ⟨he, hd, -⟩ :=
    (C4_sequential_settlement_once_amended C4wdb C4wrow 1 60 0 120 0
      h1 h2 h3).1 _ _ hrun
  exact ⟨h1, h2, h3, _, _, hrun, he, hd⟩

end Saathii
